import Mathlib

/-!
Verification development for the lead-capture webhook service
(formulario-api-tarea-clickup): a shallow embedding in Lean 4 of the
Dedupe & Persistence Engine (`app/services/lead_service.py`), the Sync
Orchestrator (`_maybe_create_clickup_items`), the External Task Client
(`app/integrations/clickup_client.py`) and the interests JSON codec
(`app/db/models.py`), together with theorems settling the specification
claims about them.

Modelling conventions:
* Python `str` is Lean `String` (valid Unicode; Python strings holding
  lone surrogates are not representable and do not arise in this code).
* `str.strip` / `str.lower` are modelled at the ASCII level
  (`String.trim`, `Char.toLower`); every claim applies them uniformly on
  both sides, so this restriction is immaterial.
* Machine words inside SHA-256 are `Nat` reduced mod `2 ^ 32` explicitly.
* Wall-clock instants are rationals (epoch seconds); the clock is
  modelled as constant within the handling of one request.
* Fallible Python code is embedded with `Except` / `Option`.
-/

/-! ## Python string primitives -/

/-- ASCII whitespace as stripped by the model of `str.strip()`. -/
def pyIsSpace (c : Char) : Bool :=
  c = ' ' || c = '\t' || c = '\n' || c = '\r'

/-- Model of Python `str.strip()` (ASCII whitespace): drop leading and
trailing whitespace characters. -/
def pyStrip (s : String) : String :=
  String.mk (((s.toList.dropWhile pyIsSpace).reverse.dropWhile pyIsSpace).reverse)

/-- Model of Python `str.lower()` (ASCII model). -/
def pyLower (s : String) : String := s.map Char.toLower

/-! ## Hex rendering -/

/-- Lowercase hex digit for `n < 16` (as produced by Python `%x` / `hexdigest`). -/
def hexDigit (n : Nat) : Char :=
  if n < 10 then Char.ofNat (48 + n) else Char.ofNat (87 + n)

/-- Big-endian, `digits`-character lowercase hex rendering of `n`. -/
def hexN (digits : Nat) (n : Nat) : List Char :=
  match digits with
  | 0 => []
  | d + 1 => hexDigit (n / 16 ^ d % 16) :: hexN d (n % 16 ^ d)

/-- Four-digit lowercase hex, as in Python `'\u%04x' % n`. -/
def hex4 (n : Nat) : List Char := hexN 4 n

/-! ## UTF-8 encoding (model of Python `str.encode("utf-8")`) -/

/-- UTF-8 encoding of one code point, as a list of byte values. -/
def utf8EncodeCharNat (c : Nat) : List Nat :=
  if c < 0x80 then [c]
  else if c < 0x800 then
    [0xC0 + c / 64, 0x80 + c % 64]
  else if c < 0x10000 then
    [0xE0 + c / 4096, 0x80 + c / 64 % 64, 0x80 + c % 64]
  else
    [0xF0 + c / 262144, 0x80 + c / 4096 % 64, 0x80 + c / 64 % 64, 0x80 + c % 64]

/-- UTF-8 encoding of a string, as a list of byte values. -/
def utf8Encode (s : String) : List Nat :=
  s.toList.flatMap (fun c => utf8EncodeCharNat c.toNat)

/-! ## SHA-256 (model of Python `hashlib.sha256`), on `Nat` words mod `2 ^ 32` -/

/-- Truncate to a 32-bit word. -/
def w32 (x : Nat) : Nat := x % 2 ^ 32

/-- 32-bit bitwise complement. -/
def not32 (x : Nat) : Nat := 0xFFFFFFFF ^^^ x

/-- 32-bit rotate right. -/
def rotr32 (x k : Nat) : Nat := w32 ((x >>> k) ||| (x <<< (32 - k)))

def sha256Ch (x y z : Nat) : Nat := (x &&& y) ^^^ (not32 x &&& z)

def sha256Maj (x y z : Nat) : Nat := (x &&& y) ^^^ (x &&& z) ^^^ (y &&& z)

def sha256BigSigma0 (x : Nat) : Nat := rotr32 x 2 ^^^ rotr32 x 13 ^^^ rotr32 x 22

def sha256BigSigma1 (x : Nat) : Nat := rotr32 x 6 ^^^ rotr32 x 11 ^^^ rotr32 x 25

def sha256SmallSigma0 (x : Nat) : Nat := rotr32 x 7 ^^^ rotr32 x 18 ^^^ (x >>> 3)

def sha256SmallSigma1 (x : Nat) : Nat := rotr32 x 17 ^^^ rotr32 x 19 ^^^ (x >>> 10)

/-- The 64 SHA-256 round constants (FIPS 180-4 section 4.2.2: the first 32
bits of the fractional parts of the cube roots of the first 64 primes),
written in decimal. -/
def sha256K : Array Nat := #[
  1116352408, 1899447441, 3049323471, 3921009573, 961987163, 1508970993,
  2453635748, 2870763221, 3624381080, 310598401, 607225278, 1426881987,
  1925078388, 2162078206, 2614888103, 3248222580, 3835390401, 4022224774,
  264347078, 604807628, 770255983, 1249150122, 1555081692, 1996064986,
  2554220882, 2821834349, 2952996808, 3210313671, 3336571891, 3584528711,
  113926993, 338241895, 666307205, 773529912, 1294757372, 1396182291,
  1695183700, 1986661051, 2177026350, 2456956037, 2730485921, 2820302411,
  3259730800, 3345764771, 3516065817, 3600352804, 4094571909, 275423344,
  430227734, 506948616, 659060556, 883997877, 958139571, 1322822218,
  1537002063, 1747873779, 1955562222, 2024104815, 2227730452, 2361852424,
  2428436474, 2756734187, 3204031479, 3329325298]

/-- The SHA-256 initial hash value (FIPS 180-4 section 5.3.3), in decimal. -/
def sha256H0 : Array Nat := #[
  1779033703, 3144134277, 1013904242, 2773480762,
  1359893119, 2600822924, 528734635, 1541459225]

/-- SHA-256 message padding: append `0x80`, zeros, then the 64-bit big-endian bit length. -/
def sha256Pad (msg : List Nat) : List Nat :=
  let len := msg.length
  let zeros := (64 + 55 - len % 64) % 64
  let bitLen := 8 * len
  msg ++ 0x80 :: List.replicate zeros 0 ++
    (List.range 8).map (fun i => bitLen >>> (8 * (7 - i)) % 256)

/-- Split a byte list into 64-byte blocks. -/
def sha256Blocks (bytes : List Nat) : List (List Nat) :=
  if _h : bytes.length = 0 ∨ bytes.length < 64 then
    match bytes with
    | [] => []
    | _ :: _ => [bytes]
  else
    bytes.take 64 :: sha256Blocks (bytes.drop 64)
termination_by bytes.length
decreasing_by
  simp only [List.length_drop]
  omega

/-- The 16 big-endian 32-bit words of one 64-byte block. -/
def sha256Words (block : List Nat) : Array Nat :=
  ((List.range 16).map (fun i =>
    block.getD (4 * i) 0 * 0x1000000 + block.getD (4 * i + 1) 0 * 0x10000 +
      block.getD (4 * i + 2) 0 * 0x100 + block.getD (4 * i + 3) 0)).toArray

/-- Message schedule: extend the 16 block words to 64. -/
def sha256Schedule (ws : Array Nat) : Array Nat :=
  (List.range 48).foldl
    (fun w j =>
      let i := j + 16
      w.push (w32 (sha256SmallSigma1 (w.getD (i - 2) 0) + w.getD (i - 7) 0 +
        sha256SmallSigma0 (w.getD (i - 15) 0) + w.getD (i - 16) 0)))
    ws

/-- One round of the SHA-256 compression function. -/
def sha256Round (wk : Array Nat) (st : Array Nat) (i : Nat) : Array Nat :=
  let a := st.getD 0 0
  let b := st.getD 1 0
  let c := st.getD 2 0
  let d := st.getD 3 0
  let e := st.getD 4 0
  let f := st.getD 5 0
  let g := st.getD 6 0
  let h := st.getD 7 0
  let t1 := h + sha256BigSigma1 e + sha256Ch e f g + sha256K.getD i 0 + wk.getD i 0
  let t2 := sha256BigSigma0 a + sha256Maj a b c
  #[w32 (t1 + t2), a, b, c, w32 (d + t1), e, f, g]

/-- Process one 64-byte block, updating the eight-word hash state. -/
def sha256Compress (st : Array Nat) (block : List Nat) : Array Nat :=
  let wk := sha256Schedule (sha256Words block)
  let fin := (List.range 64).foldl (sha256Round wk) st
  (List.range 8).foldl (fun acc i => acc.push (w32 (st.getD i 0 + fin.getD i 0))) #[]

/-- SHA-256 digest of a byte list, rendered as 64 lowercase hex characters. -/
def sha256Hex (bytes : List Nat) : String :=
  let st := (sha256Blocks (sha256Pad bytes)).foldl sha256Compress sha256H0
  String.mk ((List.range 8).flatMap (fun i => hexN 8 (st.getD i 0)))

/-! ## Python values and the JSON codec (models of `json.dumps` / `json.loads`)

The interests column stores `json.dumps(list_of_str)` and reads it back with
`json.loads`.  `PyVal` is the Python value universe that `json.loads` can
produce.  Known model restrictions (irrelevant to every claim, which only
exercises lists of strings): float literals are parsed with exact rational
semantics rather than IEEE-754 rounding, the extension tokens
`NaN`/`Infinity`/`-Infinity` are not accepted, and `\uXXXX` escapes denoting
lone surrogates are rejected because a Lean `Char` cannot hold them. -/

inductive PyVal where
  | str (s : String)
  | int (n : Int)
  | float (q : ℚ)
  | bool (b : Bool)
  | null
  | list (xs : List PyVal)
  | dict (kvs : List (String × PyVal))
deriving Repr, BEq

/-- Escape one character as Python `json.dumps` does with `ensure_ascii=True`. -/
def pyEscapeChar (c : Char) : List Char :=
  if c = '\\' then ['\\', '\\']
  else if c = '"' then ['\\', '"']
  else if c.toNat = 8 then ['\\', 'b']
  else if c.toNat = 9 then ['\\', 't']
  else if c.toNat = 10 then ['\\', 'n']
  else if c.toNat = 12 then ['\\', 'f']
  else if c.toNat = 13 then ['\\', 'r']
  else if c.toNat < 0x20 ∨ 0x7E < c.toNat then
    if c.toNat < 0x10000 then '\\' :: 'u' :: hex4 c.toNat
    else
      ('\\' :: 'u' :: hex4 (0xD800 + (c.toNat - 0x10000) / 0x400)) ++
        ('\\' :: 'u' :: hex4 (0xDC00 + (c.toNat - 0x10000) % 0x400))
  else [c]

/-- A JSON string literal for `s`, as rendered by `json.dumps` (`ensure_ascii`). -/
def pyJsonQuote (s : String) : List Char :=
  '"' :: s.toList.flatMap pyEscapeChar ++ ['"']

/-- `", ".join` over already-rendered items (the `json.dumps` default item
separator). -/
def joinCommaSpace : List (List Char) → List Char
  | [] => []
  | [x] => x
  | x :: y :: t => x ++ ',' :: ' ' :: joinCommaSpace (y :: t)

/-- Model of `json.dumps` applied to a list of strings (default separators). -/
def pyJsonDumpsStrList (l : List String) : String :=
  String.mk ('[' :: (joinCommaSpace (l.map pyJsonQuote) ++ [']']))

/-- JSON insignificant whitespace, as in Python `json`: space, tab, LF, CR. -/
def jsonSkipWs : List Char → List Char
  | [] => []
  | c :: rest =>
    if c = ' ' ∨ c = '\t' ∨ c = '\n' ∨ c = '\r' then jsonSkipWs rest else c :: rest

/-- Hex digit value, both cases accepted (as in `json` `\uXXXX` parsing). -/
def parseHexDigit (c : Char) : Option Nat :=
  let n := c.toNat
  if 48 ≤ n ∧ n ≤ 57 then some (n - 48)
  else if 97 ≤ n ∧ n ≤ 102 then some (n - 87)
  else if 65 ≤ n ∧ n ≤ 70 then some (n - 55)
  else none

/-- Parse exactly four hex digits. -/
def parseHex4 (cs : List Char) : Option (Nat × List Char) :=
  match cs with
  | a :: b :: c :: d :: rest =>
    match parseHexDigit a, parseHexDigit b, parseHexDigit c, parseHexDigit d with
    | some x, some y, some z, some w => some (4096 * x + 256 * y + 16 * z + w, rest)
    | _, _, _, _ => none
  | _ => none

/-- Parse the tail of a JSON escape sequence (the part after `\`). -/
def parseEscape (cs : List Char) : Option (Char × List Char) :=
  match cs with
  | [] => none
  | c :: r =>
    if c = '"' then some ('"', r)
    else if c = '\\' then some ('\\', r)
    else if c = '/' then some ('/', r)
    else if c = 'b' then some (Char.ofNat 8, r)
    else if c = 'f' then some (Char.ofNat 12, r)
    else if c = 'n' then some ('\n', r)
    else if c = 'r' then some (Char.ofNat 13, r)
    else if c = 't' then some ('\t', r)
    else if c = 'u' then
      match parseHex4 r with
      | none => none
      | some (n, r1) =>
        if 0xD800 ≤ n ∧ n ≤ 0xDBFF then
          match r1 with
          | a :: b :: r2 =>
            if a = '\\' ∧ b = 'u' then
              match parseHex4 r2 with
              | none => none
              | some (n2, r3) =>
                if 0xDC00 ≤ n2 ∧ n2 ≤ 0xDFFF then
                  some (Char.ofNat (0x10000 + (n - 0xD800) * 0x400 + (n2 - 0xDC00)), r3)
                else none
            else none
          | _ => none
        else if 0xDC00 ≤ n ∧ n ≤ 0xDFFF then none
        else some (Char.ofNat n, r1)
    else none

/-- Parse the body of a JSON string after the opening quote; the fuel bounds
the number of produced characters (each consumes at least one input
character, so `input length + 1` is always sufficient). Control characters
must be escaped (`strict=True`, the `json.loads` default). -/
def parseStringRest : Nat → List Char → Option (List Char × List Char)
  | 0, _ => none
  | _ + 1, [] => none
  | fuel + 1, c :: rest =>
    if c = '"' then some ([], rest)
    else if c = '\\' then
      match parseEscape rest with
      | none => none
      | some (e, r1) =>
        match parseStringRest fuel r1 with
        | none => none
        | some (s, r2) => some (e :: s, r2)
    else if c.toNat < 0x20 then none
    else
      match parseStringRest fuel rest with
      | none => none
      | some (s, r2) => some (c :: s, r2)

/-- Longest prefix of decimal digits. -/
def spanDigits : List Char → List Char × List Char
  | [] => ([], [])
  | c :: rest =>
    if 48 ≤ c.toNat ∧ c.toNat ≤ 57 then
      let (ds, r) := spanDigits rest
      (c :: ds, r)
    else ([], c :: rest)

def digitsToNat (ds : List Char) : Nat :=
  ds.foldl (fun a c => 10 * a + (c.toNat - 48)) 0

/-- Parse a JSON number per the `json` module grammar
`(-?(0|[1-9][0-9]*))(\.[0-9]+)?([eE][+-]?[0-9]+)?`; an integer literal
yields `PyVal.int`, otherwise `PyVal.float` with exact rational value. -/
def parseNumber (cs : List Char) : Option (PyVal × List Char) :=
  let (neg, cs1) := match cs with
    | c0 :: r0 => if c0 = '-' then (true, r0) else (false, cs)
    | [] => (false, cs)
  match cs1 with
  | [] => none
  | c :: rest =>
    if ¬ (48 ≤ c.toNat ∧ c.toNat ≤ 57) then none
    else
      let (intDs, r1) := if c = '0' then ([c], rest) else spanDigits cs1
      let hasDot : Bool := match r1 with
        | d :: _ => d = '.'
        | [] => false
      let (fracDs, r2) :=
        if hasDot then
          let (ds, r') := spanDigits r1.tail
          if ds = [] then ([], r1) else (ds, r')
        else ([], r1)
      let hasFrac := fracDs ≠ []
      if hasDot ∧ ¬ hasFrac then none
      else
        let hasExpChar : Bool := match r2 with
          | d :: _ => d = 'e' ∨ d = 'E'
          | [] => false
        let (expPart, r3) : Option (Bool × List Char) × List Char :=
          if hasExpChar then
            let r := r2.tail
            let (esign, r') := match r with
              | e0 :: t => if e0 = '+' then (false, t) else if e0 = '-' then (true, t) else (false, r)
              | [] => (false, r)
            let (eds, r'') := spanDigits r'
            if eds = [] then (none, r2) else (some (esign, eds), r'')
          else (none, r2)
        if hasExpChar ∧ expPart = none then none
        else if ¬ hasFrac ∧ expPart = none then
          let v : Int := Int.ofNat (digitsToNat intDs)
          some (.int (if neg then -v else v), r3)
        else
          let base : ℚ := (digitsToNat intDs : ℚ) +
            (digitsToNat fracDs : ℚ) / (10 : ℚ) ^ fracDs.length
          let e : ℤ := match expPart with
            | some (esign, eds) =>
              if esign then -(Int.ofNat (digitsToNat eds)) else Int.ofNat (digitsToNat eds)
            | none => 0
          let q : ℚ := base * (10 : ℚ) ^ e
          some (.float (if neg then -q else q), r3)

mutual

/-- Parse one JSON value (model of the `json` scanner); fuel bounds the
container nesting plus element count, each of which consumes at least one
input character, so `input length + 1` is always sufficient. -/
def parseValue : Nat → List Char → Option (PyVal × List Char)
  | 0, _ => none
  | fuel + 1, cs =>
    match cs with
    | [] => none
    | c :: rest =>
      if c = '"' then
        match parseStringRest (rest.length + 1) rest with
        | some (s, r) => some (.str (String.mk s), r)
        | none => none
      else if c = '[' then
        let rest1 := jsonSkipWs rest
        if rest1.head? = some ']' then some (.list [], rest1.tail)
        else
          match parseElems fuel rest1 with
          | some (vs, r) => some (.list vs, r)
          | none => none
      else if c = '{' then
        let rest1 := jsonSkipWs rest
        if rest1.head? = some (Char.ofNat 125) then some (.dict [], rest1.tail)
        else
          match parseMembers fuel rest1 with
          | some (kvs, r) => some (.dict kvs, r)
          | none => none
      else if c = 't' then
        if rest.take 3 = ['r', 'u', 'e'] then some (.bool true, rest.drop 3) else none
      else if c = 'f' then
        if rest.take 4 = ['a', 'l', 's', 'e'] then some (.bool false, rest.drop 4) else none
      else if c = 'n' then
        if rest.take 3 = ['u', 'l', 'l'] then some (.null, rest.drop 3) else none
      else parseNumber cs

/-- Parse a non-empty comma-separated list of array elements up to `]`. -/
def parseElems : Nat → List Char → Option (List PyVal × List Char)
  | 0, _ => none
  | fuel + 1, cs =>
    match parseValue fuel cs with
    | none => none
    | some (v, r) =>
      match jsonSkipWs r with
      | [] => none
      | d :: r2 =>
        if d = ',' then
          match parseElems fuel (jsonSkipWs r2) with
          | none => none
          | some (vs, r3) => some (v :: vs, r3)
        else if d = ']' then some ([v], r2)
        else none

/-- Parse a non-empty comma-separated list of object members up to a
closing brace. -/
def parseMembers : Nat → List Char → Option (List (String × PyVal) × List Char)
  | 0, _ => none
  | fuel + 1, cs =>
    match cs with
    | [] => none
    | c0 :: rest =>
      if c0 = '"' then
        match parseStringRest (rest.length + 1) rest with
        | none => none
        | some (k, r) =>
          match jsonSkipWs r with
          | [] => none
          | d :: r1 =>
            if d = ':' then
              match parseValue fuel (jsonSkipWs r1) with
              | none => none
              | some (v, r2) =>
                match jsonSkipWs r2 with
                | [] => none
                | e :: r3 =>
                  if e = ',' then
                    match parseMembers fuel (jsonSkipWs r3) with
                    | none => none
                    | some (kvs, r4) => some ((String.mk k, v) :: kvs, r4)
                  else if e = Char.ofNat 125 then some ([(String.mk k, v)], r3)
                  else none
            else none
      else none

end

/-- Model of Python `json.loads`: skip surrounding whitespace, parse one
value, and fail on trailing data. -/
def pyJsonLoads (s : String) : Option PyVal :=
  match parseValue ((jsonSkipWs s.toList).length + 1) (jsonSkipWs s.toList) with
  | some (v, rest) => if jsonSkipWs rest = [] then some v else none
  | none => none

/-- Model of the `Lead.intereses_servicios` getter: decode the stored text,
treating a falsy (empty) column or a `JSONDecodeError` as the empty list. -/
def interesesGetter (stored : String) : PyVal :=
  if stored = "" then .list []
  else
    match pyJsonLoads stored with
    | some v => v
    | none => .list []

/-- Model of the `Lead.intereses_servicios` setter: `json.dumps(value or [])`
(for `value : List String` the `or []` branch coincides with `value`). -/
def interesesSetter (value : List String) : String :=
  pyJsonDumpsStrList value

/-! ## Dates and timestamps -/

/-- A UTC calendar date (the value of `datetime.utcnow()` projected to a date). -/
structure UTCDate where
  year : Nat
  month : Nat
  day : Nat
deriving Repr, DecidableEq

def pad2 (n : Nat) : String := if n < 10 then "0" ++ toString n else toString n

def pad4 (n : Nat) : String :=
  if n < 10 then "000" ++ toString n
  else if n < 100 then "00" ++ toString n
  else if n < 1000 then "0" ++ toString n
  else toString n

/-- `strftime("%Y%m%d")` on a UTC date. -/
def yyyymmdd (d : UTCDate) : String := pad4 d.year ++ pad2 d.month ++ pad2 d.day

/-- Python `int()` truncation (toward zero) of a rational. -/
def pyInt (q : ℚ) : ℤ := q.num / (q.den : ℤ)

/-- Model of `_epoch_ms`: `int(dt.timestamp() * 1000)` with `t` in epoch seconds. -/
def epochMs (t : ℚ) : ℤ := pyInt (t * 1000)

/-! ## Data model (`app/db/models.py`, `app/schemas/lead.py`) -/

/-- The validated webhook payload (`LeadCreate`). -/
structure LeadCreate where
  nombre : String
  correo : String
  telefono : Option String
  intereses_servicios : List String
  mensaje : Option String
deriving Repr, DecidableEq

/-- A row of the `leads` table. -/
structure Lead where
  id : Nat
  created_at : ℚ
  updated_at : ℚ
  nombre : String
  correo : String
  telefono : Option String
  intereses_servicios_json : String
  mensaje : Option String
  dedupe_key : String
  external_task_id : Option String := none
  external_subtask_ids_json : Option String := none
deriving Repr, DecidableEq

/-- The relational store: the `leads` table plus the id autoincrement counter. -/
structure DB where
  rows : List Lead
  nextId : Nat
deriving Repr, DecidableEq

/-- String-list view of the stored interests column, as used by the Sync
Orchestrator (`", ".join(lead.intereses_servicios)`).  The service only ever
stores `json.dumps` of a list of strings, on which this agrees with Python. -/
def interesesStrList (stored : String) : List String :=
  match interesesGetter stored with
  | .list l => l.filterMap (fun v => match v with | .str s => some s | _ => none)
  | _ => []

/-! ## Dedupe key (`_generate_dedupe_key`) -/

/-- Model of `_generate_dedupe_key`: hash of
`(correo stripped+lowercased) | (UTC date YYYYMMDD) | (nombre stripped)`.
The current UTC date is passed explicitly. -/
def generateDedupeKey (data : LeadCreate) (today : UTCDate) : String :=
  let correo := pyLower (pyStrip data.correo)
  let nombre := pyStrip data.nombre
  let raw := correo ++ "|" ++ yyyymmdd today ++ "|" ++ nombre
  sha256Hex (utf8Encode raw)

/-- Modelled from the spec formula (section 4.1 step 2 / claim C2): the hex
rendering of SHA-256 over the lower-cased trimmed email, `"|"`, the UTC date
as YYYYMMDD, `"|"`, and the trimmed name, in that order. -/
def dedupeKeySpec (data : LeadCreate) (today : UTCDate) : String :=
  sha256Hex (utf8Encode
    (pyLower (pyStrip data.correo) ++ "|" ++ yyyymmdd today ++ "|" ++ pyStrip data.nombre))

/-! ## External Task Client (`app/integrations/clickup_client.py`) -/

/-- Python truthiness filter on an optional string (`if s:` keeps only a
present, non-empty value). -/
def pyTruthyStrOpt (o : Option String) : Option String :=
  match o with
  | some s => if s = "" then none else some s
  | none => none

/-- The `ClickUpClient` state after `__init__` normalization. -/
structure ClickUpConfig where
  token : String
  list_id : String
  default_status : Option String
  timeout : ℚ := 10
  max_retries : Nat := 3
deriving Repr, DecidableEq

/-- `ClickUpClient.__init__`: strip token/list id, strip the default status
and turn an empty result into `None`. -/
def mkClickUpClient (token list_id : String) (default_status : Option String) : ClickUpConfig :=
  { token := pyStrip token
    list_id := pyStrip list_id
    default_status := pyTruthyStrOpt (some (pyStrip (default_status.getD ""))) }

/-- `ClickUpClient.is_configured`: both token and list id non-empty. -/
def isConfigured (c : ClickUpConfig) : Bool :=
  !(c.token == "") && !(c.list_id == "")

/-- The dictionary shape the service reads out of a ClickUp response (or out
of the skip sentinel): the `skipped` flag, the skip reason, and the task id. -/
structure TaskDict where
  skipped : Bool := false
  reason : Option String := none
  id : Option String := none
deriving Repr, DecidableEq

/-- Outcome of one POST attempt: an HTTP response (whose body parses to
`some` dict or fails to parse), or a network-level `httpx.HTTPError`. -/
inductive Attempt where
  | http (status : Nat) (body : Option TaskDict)
  | netErr (msg : String)
deriving Repr, DecidableEq

/-- A Python exception crossing the client boundary: `ClickUpError`, or any
other exception (e.g. a JSON body that fails to parse). -/
inductive PyErr where
  | clickup (msg : String)
  | other (msg : String)
deriving Repr, DecidableEq

/-- The payload assembled by `create_task` for one POST. -/
structure Payload where
  name : String
  description : Option String := none
  due_date : Option ℤ := none
  parent : Option String := none
  status : Option String := none
deriving Repr, DecidableEq

/-- The fixed backoff schedule `[0.5, 2.0, 5.0]` (seconds). -/
def backoffs : List ℚ := [0.5, 2, 5]

/-- `backoffs[min(attempt - 1, len(backoffs) - 1)]`. -/
def backoffDelay (attempt : Nat) : ℚ :=
  backoffs.getD (min (attempt - 1) (backoffs.length - 1)) 0

/-- The `ClickUpError` message raised on exhaustion or abort. -/
def failMsg (maxRetries : Nat) (lastExc : Option String) : String :=
  "ClickUp POST failed after " ++ toString maxRetries ++ " attempts" ++
    (match lastExc with
     | some e => ": " ++ e
     | none => "")

/-- The retry loop of `_post_with_retries`.  `k` is the number of attempts
still permitted (the current attempt is numbered `maxRetries - k + 1` when
`k` attempts remain); `lastExc` is the last caught network exception.
Returns the outcome, the number of POST attempts made, and the sleeps
performed (in order). -/
def postLoop (outcomes : Nat → Attempt) (maxRetries : Nat) :
    Nat → Option String → Except PyErr TaskDict × Nat × List ℚ
  | 0, lastExc => (.error (.clickup (failMsg maxRetries lastExc)), 0, [])
  | k + 1, lastExc =>
    let attempt := maxRetries - k
    match outcomes attempt with
    | .http status body =>
      if 200 ≤ status ∧ status < 300 then
        match body with
        | some d => (.ok d, 1, [])
        | none => (.error (.other "response body is not valid JSON"), 1, [])
      else if status = 429 ∨ (500 ≤ status ∧ status < 600) then
        if k = 0 then (.error (.clickup (failMsg maxRetries lastExc)), 1, [])
        else
          let (res, n, sleeps) := postLoop outcomes maxRetries k lastExc
          (res, n + 1, backoffDelay attempt :: sleeps)
      else
        (.error (.clickup (failMsg maxRetries lastExc)), 1, [])
    | .netErr m =>
      if k = 0 then (.error (.clickup (failMsg maxRetries (some m))), 1, [])
      else
        let (res, n, sleeps) := postLoop outcomes maxRetries k (some m)
        (res, n + 1, backoffDelay attempt :: sleeps)

/-- `_post_with_retries`: run the loop over attempts `1..max_retries`. -/
def postWithRetries (cfg : ClickUpConfig) (outcomes : Nat → Attempt) :
    Except PyErr TaskDict × Nat × List ℚ :=
  postLoop outcomes cfg.max_retries cfg.max_retries none

/-- `ClickUpClient.create_task`: configuration gate, payload assembly, then
the retried POST.  Returns the outcome, the attempt count, the sleeps, and
the payload (`none` when the call was skipped and no POST was issued). -/
def createTask (cfg : ClickUpConfig) (name : String) (description : Option String)
    (due_date_ms : Option ℤ) (parent : Option String) (outcomes : Nat → Attempt) :
    Except PyErr TaskDict × Nat × List ℚ × Option Payload :=
  if isConfigured cfg = false then
    (.ok { skipped := true, reason := some "missing_token_or_list_id" }, 0, [], none)
  else
    let payload : Payload := {
      name := name
      description := pyTruthyStrOpt description
      due_date := due_date_ms
      parent := pyTruthyStrOpt parent
      status := cfg.default_status }
    let (res, n, sleeps) := postWithRetries cfg outcomes
    (res, n, sleeps, some payload)

/-! ## Sync Orchestrator (`_maybe_create_clickup_items`) -/

/-- Observability events recorded on the integration path. -/
inductive Event where
  | tmSkipped
  | tmTaskCreated (parentId : Option String)
  | tmSubtaskCreated (parentId : Option String) (subtaskId : Option String) (title : String)
  | tmPersistIdsNoSession (leadId : Nat)
  | tmPersistedIds (leadId : Nat) (parentId : Option String) (count : Nat)
  | tmError (msg : String)
  | tmUnexpectedError (msg : String)
deriving Repr, DecidableEq

/-- The default subtask titles hard-coded in `_subtasks_from_env`. -/
def defaultSubtasks : List String :=
  ["Contactar lead (24h)", "Enviar información", "Proponer 3 horarios", "Agendar reunión inicial"]

/-- `_subtasks_from_env`: semicolon-split the configured titles, stripping
parts and dropping empty ones; fall back to the defaults if the setting is
blank. -/
def subtasksFromEnv (setting : String) : List String :=
  let raw := pyStrip setting
  if raw = "" then defaultSubtasks
  else ((raw.splitOn ";").map pyStrip).filter (fun p => p ≠ "")

/-- `x or "-"` placeholder used in the parent-task description. -/
def pyOrDash (o : Option String) : String :=
  match o with
  | some s => if s = "" then "-" else s
  | none => "-"

/-- The parent-task description built by `_maybe_create_clickup_items`. -/
def leadDescripcion (lead : Lead) : String :=
  let il := interesesStrList lead.intereses_servicios_json
  let intereses := if il = [] then "-" else String.intercalate ", " il
  "**Nombre:** " ++ lead.nombre ++ "\n" ++
    "**Correo:** " ++ lead.correo ++ "\n" ++
    "**Teléfono:** " ++ pyOrDash lead.telefono ++ "\n" ++
    "**Intereses:** " ++ intereses ++ "\n" ++
    "**Mensaje:** " ++ pyOrDash lead.mensaje ++ "\n"

/-- The write-back commit: set the external ids on the row with the given id
(`updated_at` is refreshed by the column's `onupdate`; the clock is modelled
as constant within the request). -/
def updateLead (db : DB) (leadId : Nat) (parentId : Option String) (subIds : List String)
    (now : ℚ) : DB :=
  { db with rows := db.rows.map (fun r =>
      if r.id = leadId then
        { r with
          external_task_id := parentId
          external_subtask_ids_json := some (pyJsonDumpsStrList subIds)
          updated_at := now }
      else r) }

/-- The subtask creation loop: one `create_subtask` per title, the first
with the due timestamp; collects `str(sub.get("id") or "")` per subtask.
`behavior call attempt` gives the POST outcomes; subtask `idx` is call
`idx + 1`.  Returns the collected ids (or the first exception), the events
logged before any exception, and the POST payload trace. -/
def subtaskLoop (cfg : ClickUpConfig) (behavior : Nat → Nat → Attempt) (parentId : Option String)
    (dueMs : Option ℤ) : List String → Nat →
    Except PyErr (List String) × List Event × List Payload
  | [], _ => (.ok [], [], [])
  | title :: rest, idx =>
    let (res, n, _sleeps, pay) :=
      createTask cfg title none (if idx = 0 then dueMs else none) parentId (behavior (idx + 1))
    let pays := match pay with
      | some p => List.replicate n p
      | none => []
    match res with
    | .error e => (.error e, [], pays)
    | .ok sub =>
      let sid := match sub.id with
        | none => ""
        | some s => s
      let ev := Event.tmSubtaskCreated parentId sub.id title
      match subtaskLoop cfg behavior parentId dueMs rest (idx + 1) with
      | (.error e, evs, pays2) => (.error e, ev :: evs, pays ++ pays2)
      | (.ok sids, evs, pays2) => (.ok (sid :: sids), ev :: evs, pays ++ pays2)

/-- The `try` block of `_maybe_create_clickup_items` (after the
configuration gate): create the parent, re-check the skip sentinel, create
the subtasks, then write the external ids back if a session is attached.
An `.error` result is an exception escaping the block. -/
def clickupBody (cfg : ClickUpConfig) (behavior : Nat → Nat → Attempt) (setting : String)
    (now : ℚ) (lead : Lead) (hasSession : Bool) (db : DB) :
    Except PyErr DB × List Event × List Payload :=
  let (pres, pn, _psleeps, ppay) :=
    createTask cfg ("Nuevo lead: " ++ lead.nombre) (some (leadDescripcion lead)) none none
      (behavior 0)
  let ppays := match ppay with
    | some p => List.replicate pn p
    | none => []
  match pres with
  | .error e => (.error e, [], ppays)
  | .ok parent =>
    if parent.skipped then (.ok db, [.tmSkipped], ppays)
    else
      let parentId := parent.id
      let subtasks := subtasksFromEnv setting
      let dueMs : Option ℤ := if subtasks = [] then none else some (epochMs (now + 86400))
      match subtaskLoop cfg behavior parentId dueMs subtasks 0 with
      | (.error e, sevs, spays) => (.error e, Event.tmTaskCreated parentId :: sevs, ppays ++ spays)
      | (.ok subIds, sevs, spays) =>
        let evs := Event.tmTaskCreated parentId :: sevs
        if hasSession = false then
          (.ok db, evs ++ [.tmPersistIdsNoSession lead.id], ppays ++ spays)
        else
          (.ok (updateLead db lead.id parentId subIds now),
            evs ++ [.tmPersistedIds lead.id parentId subIds.length], ppays ++ spays)

/-- `_maybe_create_clickup_items`: configuration gate, the `try` block, and
the two `except` handlers that record and swallow every exception. -/
def maybeCreateClickupItems (cfg : ClickUpConfig) (behavior : Nat → Nat → Attempt)
    (setting : String) (now : ℚ) (lead : Lead) (hasSession : Bool) (db : DB) :
    DB × List Event × List Payload :=
  if isConfigured cfg = false then (db, [.tmSkipped], [])
  else
    match clickupBody cfg behavior setting now lead hasSession db with
    | (.ok db2, evs, pays) => (db2, evs, pays)
    | (.error (.clickup m), evs, pays) => (db, evs ++ [.tmError m], pays)
    | (.error (.other m), evs, pays) => (db, evs ++ [.tmUnexpectedError m], pays)

/-! ## Dedupe & Persistence Engine (`create_or_get_lead`) -/

/-- `SELECT ... WHERE correo = x ORDER BY created_at DESC LIMIT 1`: a row
with maximal `created_at` among those matching the email. -/
def latestByCorreo (db : DB) (correo : String) : Option Lead :=
  (db.rows.filter (fun r => r.correo == correo)).foldl
    (fun acc r =>
      match acc with
      | none => some r
      | some a => if a.created_at < r.created_at then some r else some a)
    none

/-- The `Lead(...)` row constructed by `create_or_get_lead` before the
INSERT (plus the `intereses_servicios` property assignment): the id the
autoincrement will assign, both timestamps at the current instant, the
lower-cased email, and the dedupe key. -/
def newLeadOf (s : DB) (data : LeadCreate) (today : UTCDate) (now : ℚ) : Lead :=
  { id := s.nextId
    created_at := now
    updated_at := now
    nombre := data.nombre
    correo := pyLower data.correo
    telefono := data.telefono
    intereses_servicios_json := interesesSetter data.intereses_servicios
    mensaje := data.mensaje
    dedupe_key := generateDedupeKey data today }

/-- `db.add(lead); db.commit()` on the success path: append the row and
advance the autoincrement counter. -/
def insertDB (s : DB) (lead : Lead) : DB :=
  { rows := s.rows ++ [lead], nextId := s.nextId + 1 }

/-- Model of `create_or_get_lead`.  The uniqueness constraint on
`dedupe_key` is checked against `sCommit`, the store as the INSERT commits;
the conflict-path SELECTs run against `sQuery`, the store as they execute
(`sQuery = sCommit` in a race-free run).  `.error` is the re-raised
`IntegrityError` of the pathological no-row case.  On first creation the
sync step runs with the given client configuration and POST behavior, and
the returned lead is re-read from the store (`db.refresh`). -/
def createOrGetLead (cfg : ClickUpConfig) (behavior : Nat → Nat → Attempt) (setting : String)
    (sCommit sQuery : DB) (data : LeadCreate) (today : UTCDate) (now : ℚ) :
    Except Unit (DB × Lead × Bool × List Event × List Payload) :=
  let key := generateDedupeKey data today
  let newLead : Lead := newLeadOf sCommit data today now
  if sCommit.rows.any (fun r => r.dedupe_key == key) then
    match sQuery.rows.find? (fun r => r.dedupe_key == key) with
    | some existing => .ok (sQuery, existing, false, [], [])
    | none =>
      match latestByCorreo sQuery (pyLower data.correo) with
      | some fb => .ok (sQuery, fb, false, [], [])
      | none => .error ()
  else
    match maybeCreateClickupItems cfg behavior setting now newLead true
        (insertDB sCommit newLead) with
    | (s2, evs, pays) =>
      let leadFinal := (s2.rows.find? (fun r => r.id == newLead.id)).getD newLead
      .ok (s2, leadFinal, true, evs, pays)

/-- An attempt outcome on which the loop retries: network failure, HTTP 429,
or HTTP 5xx. -/
def retryableAttempt : Attempt → Prop
  | .http status _ => status = 429 ∨ (500 ≤ status ∧ status < 600)
  | .netErr _ => True

/-- `some body` when the attempt got a 2xx response with the given parsed
body (`none` standing for an unparseable body), `none` otherwise. -/
def attempt2xx : Attempt → Option (Option TaskDict)
  | .http status body => if 200 ≤ status ∧ status < 300 then some body else none
  | .netErr _ => none

/-- `last_exc` after one more attempt: a network error replaces it, an HTTP
response leaves it. -/
def updExc (a : Attempt) (acc : Option String) : Option String :=
  match a with
  | .netErr m => some m
  | .http _ _ => acc

/-- `last_exc` after processing attempts `base + 1 .. base + n` starting
from `acc`. -/
def lastExcAfter (outcomes : Nat → Attempt) : Nat → Nat → Option String → Option String
  | _, 0, acc => acc
  | base, n + 1, acc => lastExcAfter outcomes (base + 1) n (updExc (outcomes (base + 1)) acc)

/-- A sample stored lead used to instantiate claims at concrete inputs. -/
def sampleLead : Lead :=
  { id := 7, created_at := 0, updated_at := 0, nombre := "Ana", correo := "ana@x.co",
    telefono := none, intereses_servicios_json := "[]", mensaje := none, dedupe_key := "k" }

/-- A sample store containing `sampleLead`. -/
def sampleDB : DB := { rows := [sampleLead], nextId := 8 }

/-- A sample submission used to instantiate claims at concrete inputs. -/
def sampleData : LeadCreate :=
  { nombre := "Ana", correo := "ana@x.co", telefono := none,
    intereses_servicios := [], mensaje := none }

/-- A sample submission date. -/
def sampleToday : UTCDate := { year := 2026, month := 10, day := 12 }

/-- A stored row whose dedupe key matches `sampleData` on `sampleToday`. -/
def sampleKeyRow : Lead :=
  { sampleLead with dedupe_key := generateDedupeKey sampleData sampleToday }

/-- A store containing `sampleKeyRow`. -/
def sampleKeyDB : DB := { rows := [sampleKeyRow], nextId := 8 }

/-- The submission-visible core of a stored row: everything except the
external ClickUp ids and `updated_at`, the only fields the sync write-back
touches. -/
def sameCore (r0 r : Lead) : Prop :=
  r.id = r0.id ∧ r.created_at = r0.created_at ∧ r.nombre = r0.nombre ∧
    r.correo = r0.correo ∧ r.telefono = r0.telefono ∧
    r.intereses_servicios_json = r0.intereses_servicios_json ∧
    r.mensaje = r0.mensaje ∧ r.dedupe_key = r0.dedupe_key

/-- The empty store. -/
def emptyDB : DB := { rows := [], nextId := 0 }

/-! ## Lemmas: the JSON codec round-trips on lists of strings -/

theorem parseHexDigit_hexDigit : ∀ n < 16, parseHexDigit (hexDigit n) = some n := by decide

theorem hex4_digits (n : Nat) :
    hex4 n = hexDigit (n / 4096 % 16) :: hexDigit (n % 4096 / 256 % 16) ::
      hexDigit (n % 4096 % 256 / 16 % 16) :: [hexDigit (n % 4096 % 256 % 16 / 1 % 16)] := by
  norm_num [hex4, hexN]

theorem parseHex4_hex4 (n : Nat) (hn : n < 0x10000) (rest : List Char) :
    parseHex4 (hex4 n ++ rest) = some (n, rest) := by
  rw [hex4_digits]
  simp only [List.cons_append, List.nil_append, parseHex4]
  rw [parseHexDigit_hexDigit _ (Nat.mod_lt _ (by norm_num)),
    parseHexDigit_hexDigit _ (Nat.mod_lt _ (by norm_num)),
    parseHexDigit_hexDigit _ (Nat.mod_lt _ (by norm_num)),
    parseHexDigit_hexDigit _ (Nat.mod_lt _ (by norm_num))]
  simp only [Option.some.injEq, Prod.mk.injEq, and_true]
  omega

theorem char_toNat_valid (c : Char) :
    c.toNat < 0xD800 ∨ (0xDFFF < c.toNat ∧ c.toNat < 0x110000) := c.valid

theorem pyEscapeChar_length (c : Char) : 1 ≤ (pyEscapeChar c).length := by
  unfold pyEscapeChar
  repeat' split
  all_goals simp

theorem length_le_flatMap_escape (s : List Char) :
    s.length ≤ (s.flatMap pyEscapeChar).length := by
  induction s with
  | nil => simp
  | cons c t ih =>
    have := pyEscapeChar_length c
    simp only [List.flatMap_cons, List.length_append, List.length_cons]
    omega


theorem parseEscape_u_pair (hi lo : Nat) (r2 : List Char) (hhi : hi < 0x10000) (hlo : lo < 0x10000)
    (hd1 : 0xD800 ≤ hi ∧ hi ≤ 0xDBFF) (hd2 : 0xDC00 ≤ lo ∧ lo ≤ 0xDFFF) :
    parseEscape ('u' :: (hex4 hi ++ ('\\' :: 'u' :: (hex4 lo ++ r2)))) =
      some (Char.ofNat (0x10000 + (hi - 0xD800) * 0x400 + (lo - 0xDC00)), r2) := by
  simp only [parseEscape, Char.reduceEq, reduceIte]
  rw [parseHex4_hex4 _ hhi]
  simp only [if_pos hd1, Char.reduceEq, and_self, reduceIte]
  rw [parseHex4_hex4 _ hlo]
  simp only [if_pos hd2]

theorem parseEscape_u_bmp (n : Nat) (r1 : List Char) (h : n < 0x10000)
    (hs1 : ¬(0xD800 ≤ n ∧ n ≤ 0xDBFF)) (hs2 : ¬(0xDC00 ≤ n ∧ n ≤ 0xDFFF)) :
    parseEscape ('u' :: (hex4 n ++ r1)) = some (Char.ofNat n, r1) := by
  simp only [parseEscape, Char.reduceEq, reduceIte]
  rw [parseHex4_hex4 _ h]
  simp only [if_neg hs1, if_neg hs2]

theorem parseStringRest_quoteHead (fuel : Nat) (cs : List Char) :
    parseStringRest (fuel + 1) ('"' :: cs) = some ([], cs) := by
  rw [parseStringRest.eq_3]
  simp

theorem parseStringRest_escStep (fuel : Nat) (cs r1 r2 : List Char) (e : Char) (s2 : List Char)
    (hesc : parseEscape cs = some (e, r1))
    (hrec : parseStringRest fuel r1 = some (s2, r2)) :
    parseStringRest (fuel + 1) ('\\' :: cs) = some (e :: s2, r2) := by
  rw [parseStringRest.eq_3]
  simp [hesc, hrec]

theorem parseStringRest_plainStep (fuel : Nat) (c : Char) (cs r2 : List Char) (s2 : List Char)
    (h1 : ¬ c = '"') (h2 : ¬ c = '\\') (h3 : ¬ c.toNat < 0x20)
    (hrec : parseStringRest fuel cs = some (s2, r2)) :
    parseStringRest (fuel + 1) (c :: cs) = some (c :: s2, r2) := by
  rw [parseStringRest.eq_3]
  rw [if_neg h1, if_neg h2, if_neg h3, hrec]

set_option maxHeartbeats 1000000 in
theorem parseStringRest_escape (s : List Char) : ∀ (fuel : Nat) (rest : List Char),
    s.length < fuel →
    parseStringRest fuel (s.flatMap pyEscapeChar ++ '"' :: rest) = some (s, rest) := by
  induction s with
  | nil =>
    intro fuel rest h
    obtain ⟨f, rfl⟩ : ∃ f, fuel = f + 1 := ⟨fuel - 1, by omega⟩
    exact parseStringRest_quoteHead f rest
  | cons c s ih =>
    intro fuel rest h
    obtain ⟨f, rfl⟩ : ∃ f, fuel = f + 1 := ⟨fuel - 1, by omega⟩
    have hf : s.length < f := by
      simp only [List.length_cons] at h
      omega
    rw [List.flatMap_cons, List.append_assoc]
    by_cases h1 : c = '\\'
    · subst h1
      have hesc : pyEscapeChar '\\' = ['\\', '\\'] := by simp [pyEscapeChar]
      rw [hesc]
      simp only [List.cons_append, List.nil_append]
      exact parseStringRest_escStep f _ _ _ _ _ rfl (ih f rest hf)
    by_cases h2 : c = '"'
    · subst h2
      have hesc : pyEscapeChar '"' = ['\\', '"'] := by simp [pyEscapeChar]
      rw [hesc]
      simp only [List.cons_append, List.nil_append]
      exact parseStringRest_escStep f _ _ _ _ _ rfl (ih f rest hf)
    by_cases h3 : c.toNat = 8
    · have hc : Char.ofNat 8 = c := by rw [← h3, Char.ofNat_toNat]
      have hesc : pyEscapeChar c = ['\\', 'b'] := by simp [pyEscapeChar, h1, h2, h3]
      rw [hesc]
      simp only [List.cons_append, List.nil_append]
      rw [show c :: s = Char.ofNat 8 :: s from by rw [hc]]
      exact parseStringRest_escStep f _ _ _ _ _ rfl (ih f rest hf)
    by_cases h4 : c.toNat = 9
    · have hc : Char.ofNat 9 = c := by rw [← h4, Char.ofNat_toNat]
      have hesc : pyEscapeChar c = ['\\', 't'] := by simp [pyEscapeChar, h1, h2, h3, h4]
      rw [hesc]
      simp only [List.cons_append, List.nil_append]
      rw [show c :: s = Char.ofNat 9 :: s from by rw [hc]]
      exact parseStringRest_escStep f _ _ _ _ _ rfl (ih f rest hf)
    by_cases h5 : c.toNat = 10
    · have hc : Char.ofNat 10 = c := by rw [← h5, Char.ofNat_toNat]
      have hesc : pyEscapeChar c = ['\\', 'n'] := by simp [pyEscapeChar, h1, h2, h3, h4, h5]
      rw [hesc]
      simp only [List.cons_append, List.nil_append]
      rw [show c :: s = Char.ofNat 10 :: s from by rw [hc]]
      exact parseStringRest_escStep f _ _ _ _ _ rfl (ih f rest hf)
    by_cases h6 : c.toNat = 12
    · have hc : Char.ofNat 12 = c := by rw [← h6, Char.ofNat_toNat]
      have hesc : pyEscapeChar c = ['\\', 'f'] := by simp [pyEscapeChar, h1, h2, h3, h4, h5, h6]
      rw [hesc]
      simp only [List.cons_append, List.nil_append]
      rw [show c :: s = Char.ofNat 12 :: s from by rw [hc]]
      exact parseStringRest_escStep f _ _ _ _ _ rfl (ih f rest hf)
    by_cases h7 : c.toNat = 13
    · have hc : Char.ofNat 13 = c := by rw [← h7, Char.ofNat_toNat]
      have hesc : pyEscapeChar c = ['\\', 'r'] := by
        simp [pyEscapeChar, h1, h2, h3, h4, h5, h6, h7]
      rw [hesc]
      simp only [List.cons_append, List.nil_append]
      rw [show c :: s = Char.ofNat 13 :: s from by rw [hc]]
      exact parseStringRest_escStep f _ _ _ _ _ rfl (ih f rest hf)
    by_cases h8 : c.toNat < 0x20 ∨ 0x7E < c.toNat
    · have hval := char_toNat_valid c
      by_cases h9 : c.toNat < 0x10000
      · have hs1 : ¬(0xD800 ≤ c.toNat ∧ c.toNat ≤ 0xDBFF) := by omega
        have hs2 : ¬(0xDC00 ≤ c.toNat ∧ c.toNat ≤ 0xDFFF) := by omega
        have hesc : pyEscapeChar c = '\\' :: 'u' :: hex4 c.toNat := by
          simp [pyEscapeChar, h1, h2, h3, h4, h5, h6, h7, h8, h9]
        rw [hesc]
        simp only [List.cons_append, List.append_assoc, List.nil_append]
        rw [show c :: s = Char.ofNat c.toNat :: s from by rw [Char.ofNat_toNat]]
        exact parseStringRest_escStep f _ _ _ _ _
          (parseEscape_u_bmp c.toNat _ h9 hs1 hs2) (ih f rest hf)
      · have hmod := Nat.mod_lt (c.toNat - 0x10000) (show 0 < 0x400 by norm_num)
        have hesc : pyEscapeChar c = '\\' :: 'u' :: (hex4 (0xD800 + (c.toNat - 0x10000) / 0x400) ++
            '\\' :: 'u' :: hex4 (0xDC00 + (c.toNat - 0x10000) % 0x400)) := by
          simp [pyEscapeChar, h1, h2, h3, h4, h5, h6, h7, h8, h9]
        rw [hesc]
        simp only [List.cons_append, List.append_assoc, List.nil_append]
        generalize hgHI : 0xD800 + (c.toNat - 0x10000) / 0x400 = hi
        generalize hgLO : 0xDC00 + (c.toNat - 0x10000) % 0x400 = lo
        have hdiv : (c.toNat - 0x10000) / 0x400 < 0x400 := by
          apply Nat.div_lt_of_lt_mul
          omega
        have hhi : hi < 0x10000 := by omega
        have hlo : lo < 0x10000 := by omega
        have hd1 : 0xD800 ≤ hi ∧ hi ≤ 0xDBFF := by omega
        have hd2 : 0xDC00 ≤ lo ∧ lo ≤ 0xDFFF := by omega
        have hc : Char.ofNat (0x10000 + (hi - 0xD800) * 0x400 + (lo - 0xDC00)) = c := by
          have harith : 0x10000 + (hi - 0xD800) * 0x400 + (lo - 0xDC00) = c.toNat := by omega
          rw [harith, Char.ofNat_toNat]
        rw [show c :: s = Char.ofNat (0x10000 + (hi - 0xD800) * 0x400 + (lo - 0xDC00)) :: s
          from by rw [hc]]
        exact parseStringRest_escStep f _ _ _ _ _
          (parseEscape_u_pair hi lo _ hhi hlo hd1 hd2) (ih f rest hf)
    · have hge : ¬(c.toNat < 0x20) := by omega
      have hesc : pyEscapeChar c = [c] := by
        simp [pyEscapeChar, h1, h2, h3, h4, h5, h6, h7, h8]
      rw [hesc]
      simp only [List.cons_append, List.nil_append]
      exact parseStringRest_plainStep f c _ _ _ h2 h1 hge (ih f rest hf)

theorem parseValue_quote (a : String) (tail : List Char) (f : Nat) :
    parseValue (f + 1) ('"' :: (a.toList.flatMap pyEscapeChar ++ '"' :: tail)) =
      some (.str a, tail) := by
  have hb : a.toList.length < (a.toList.flatMap pyEscapeChar ++ '"' :: tail).length + 1 := by
    have := length_le_flatMap_escape a.toList
    simp only [List.length_append, List.length_cons]
    omega
  rw [parseValue.eq_3]
  simp only [Char.reduceEq, reduceIte]
  rw [parseStringRest_escape a.toList _ tail hb]
  rfl

theorem jsonSkipWs_cons (c : Char) (z : List Char)
    (h : ¬(c = ' ' ∨ c = '\t' ∨ c = '\n' ∨ c = '\r')) :
    jsonSkipWs (c :: z) = c :: z := by
  simp [jsonSkipWs, h]

theorem jsonSkipWs_space (z : List Char) : jsonSkipWs (' ' :: z) = jsonSkipWs z := by
  simp [jsonSkipWs]

theorem quote_len (s : String) : 2 ≤ (pyJsonQuote s).length := by
  simp [pyJsonQuote]

theorem joinCommaSpace_quote_head (b : String) (L : List (List Char)) :
    ∃ z, joinCommaSpace (pyJsonQuote b :: L) = '"' :: z := by
  cases L with
  | nil => exact ⟨_, rfl⟩
  | cons y t => exact ⟨_, rfl⟩

theorem joinCommaSpace_length (ps : List (List Char)) (h : ∀ p ∈ ps, 2 ≤ p.length) :
    ps.length ≤ (joinCommaSpace ps).length := by
  induction ps with
  | nil => simp [joinCommaSpace]
  | cons x t ih =>
    cases t with
    | nil =>
      have hx := h x (by simp)
      rw [show joinCommaSpace [x] = x from rfl]
      simp only [List.length_cons, List.length_nil]
      omega
    | cons y t2 =>
      have hx := h x (by simp)
      have ht := ih (fun p hp => h p (List.mem_cons_of_mem x hp))
      rw [show joinCommaSpace (x :: y :: t2) = x ++ ',' :: ' ' :: joinCommaSpace (y :: t2)
        from rfl]
      simp only [List.length_append, List.length_cons] at *
      omega

theorem parseElems_last (f : Nat) (cs r rest : List Char) (v : PyVal)
    (hv : parseValue f cs = some (v, r)) (hws : jsonSkipWs r = ']' :: rest) :
    parseElems (f + 1) cs = some ([v], rest) := by
  rw [parseElems.eq_2, hv]
  simp [hws]

theorem parseElems_cons (f : Nat) (cs r r2 r3 : List Char) (v : PyVal) (vs : List PyVal)
    (hv : parseValue f cs = some (v, r)) (hws : jsonSkipWs r = ',' :: r2)
    (hrec : parseElems f (jsonSkipWs r2) = some (vs, r3)) :
    parseElems (f + 1) cs = some (v :: vs, r3) := by
  rw [parseElems.eq_2, hv]
  simp [hws, hrec]

theorem parseElems_quotes (l : List String) : ∀ (f : Nat) (rest : List Char),
    l ≠ [] → l.length < f + 1 →
    parseElems (f + 1) (joinCommaSpace (l.map pyJsonQuote) ++ ']' :: rest) =
      some (l.map PyVal.str, rest) := by
  induction l with
  | nil =>
    intro f rest hne _h
    exact absurd rfl hne
  | cons a t ih =>
    intro f rest _ h
    simp only [List.length_cons] at h
    obtain ⟨f1, rfl⟩ : ∃ f1, f = f1 + 1 := ⟨f - 1, by omega⟩
    cases t with
    | nil =>
      rw [show joinCommaSpace ([a].map pyJsonQuote) ++ ']' :: rest =
          '"' :: (a.toList.flatMap pyEscapeChar ++ '"' :: (']' :: rest)) from by
        simp [joinCommaSpace, pyJsonQuote]]
      exact parseElems_last (f1 + 1) _ _ _ _ (parseValue_quote a (']' :: rest) f1)
        (jsonSkipWs_cons ']' rest (by decide))
    | cons b t2 =>
      rw [show joinCommaSpace ((a :: b :: t2).map pyJsonQuote) ++ ']' :: rest =
          '"' :: (a.toList.flatMap pyEscapeChar ++ '"' ::
            (',' :: (' ' :: (joinCommaSpace ((b :: t2).map pyJsonQuote) ++ ']' :: rest))))
          from by
        simp [joinCommaSpace, pyJsonQuote]]
      have hrec : parseElems (f1 + 1)
          (jsonSkipWs (' ' :: (joinCommaSpace ((b :: t2).map pyJsonQuote) ++ ']' :: rest))) =
          some ((b :: t2).map PyVal.str, rest) := by
        rw [jsonSkipWs_space]
        obtain ⟨z, hz⟩ := joinCommaSpace_quote_head b (t2.map pyJsonQuote)
        rw [show (b :: t2).map pyJsonQuote = pyJsonQuote b :: t2.map pyJsonQuote from rfl, hz]
        rw [show ('"' :: z) ++ ']' :: rest = '"' :: (z ++ ']' :: rest) from rfl]
        rw [jsonSkipWs_cons '"' _ (by decide)]
        rw [show '"' :: (z ++ ']' :: rest) = ('"' :: z) ++ ']' :: rest from rfl, ← hz]
        rw [show pyJsonQuote b :: t2.map pyJsonQuote = (b :: t2).map pyJsonQuote from rfl]
        refine ih f1 rest (by simp) ?_
        simp only [List.length_cons] at h ⊢
        omega
      exact parseElems_cons (f1 + 1) _ _ _ _ _ _ (parseValue_quote a _ f1)
        (jsonSkipWs_cons ',' _ (by decide)) hrec

theorem parseValue_bracket (f : Nat) (X : List Char) (vs : List PyVal) (r : List Char)
    (hws : jsonSkipWs X = X) (hhead : ¬ X.head? = some ']')
    (helems : parseElems f X = some (vs, r)) :
    parseValue (f + 1) ('[' :: X) = some (.list vs, r) := by
  rw [parseValue.eq_3]
  simp only [Char.reduceEq, reduceIte, hws, if_neg hhead, helems]

theorem pyJsonLoads_dumps (l : List String) :
    pyJsonLoads (pyJsonDumpsStrList l) = some (PyVal.list (l.map PyVal.str)) := by
  cases l with
  | nil => rfl
  | cons a t =>
    have hq : ∀ p ∈ (a :: t).map pyJsonQuote, 2 ≤ p.length := by
      intro p hp
      obtain ⟨s, _, rfl⟩ := List.mem_map.mp hp
      exact quote_len s
    have hlen := joinCommaSpace_length _ hq
    rw [List.length_map] at hlen
    simp only [List.length_cons] at hlen
    obtain ⟨z, hz⟩ := joinCommaSpace_quote_head a (t.map pyJsonQuote)
    have hz2 : joinCommaSpace ((a :: t).map pyJsonQuote) = '"' :: z := hz
    unfold pyJsonLoads pyJsonDumpsStrList
    rw [show (String.mk ('[' :: (joinCommaSpace ((a :: t).map pyJsonQuote) ++ [']']))).toList =
        '[' :: (joinCommaSpace ((a :: t).map pyJsonQuote) ++ [']']) from rfl]
    rw [jsonSkipWs_cons '[' _ (by decide)]
    have hws : jsonSkipWs (joinCommaSpace ((a :: t).map pyJsonQuote) ++ [']']) =
        joinCommaSpace ((a :: t).map pyJsonQuote) ++ [']'] := by
      rw [hz2, show ('"' :: z) ++ [']'] = '"' :: (z ++ [']']) from rfl]
      exact jsonSkipWs_cons '"' _ (by decide)
    have hhead : ¬ (joinCommaSpace ((a :: t).map pyJsonQuote) ++ [']']).head? = some ']' := by
      rw [hz2]
      simp
    have helems : parseElems ((joinCommaSpace ((a :: t).map pyJsonQuote)).length + 1 + 1)
        (joinCommaSpace ((a :: t).map pyJsonQuote) ++ [']']) =
        some ((a :: t).map PyVal.str, []) := by
      refine parseElems_quotes (a :: t) ((joinCommaSpace ((a :: t).map pyJsonQuote)).length + 1)
        [] (by simp) ?_
      simp only [List.length_cons]
      omega
    rw [show ('[' :: (joinCommaSpace ((a :: t).map pyJsonQuote) ++ [']'])).length + 1 =
        ((joinCommaSpace ((a :: t).map pyJsonQuote)).length + 1 + 1) + 1 from by simp]
    rw [parseValue_bracket _ _ _ _ hws hhead helems]
    simp [jsonSkipWs]

/-! ## Lemmas: the interests codec at the model boundary -/

theorem pyJsonDumpsStrList_ne_empty (l : List String) : pyJsonDumpsStrList l ≠ "" := by
  unfold pyJsonDumpsStrList
  intro h
  have h2 := congrArg String.toList h
  simp at h2

theorem interesesGetter_setter (l : List String) :
    interesesGetter (interesesSetter l) = PyVal.list (l.map PyVal.str) := by
  unfold interesesGetter interesesSetter
  rw [if_neg (pyJsonDumpsStrList_ne_empty l), pyJsonLoads_dumps]

/-! ## Lemmas: the retry loop of the External Task Client -/

theorem postLoop_spec (outcomes : Nat → Attempt) (mr : Nat) :
    ∀ (k : Nat) (last : Option String), k ≤ mr →
    (postLoop outcomes mr k last).2.1 ≤ k ∧
    (1 ≤ k → 1 ≤ (postLoop outcomes mr k last).2.1) ∧
    (∀ j, mr - k < j → j < mr - k + (postLoop outcomes mr k last).2.1 →
      retryableAttempt (outcomes j)) ∧
    (∀ d, (postLoop outcomes mr k last).1 = .ok d ↔
      (1 ≤ (postLoop outcomes mr k last).2.1 ∧
        attempt2xx (outcomes (mr - k + (postLoop outcomes mr k last).2.1)) = some (some d))) ∧
    ((postLoop outcomes mr k last).2.2 =
      (List.range ((postLoop outcomes mr k last).2.1 - 1)).map
        (fun i => backoffDelay (mr - k + i + 1))) ∧
    (∀ m, (postLoop outcomes mr k last).1 = .error (.clickup m) →
      m = failMsg mr (lastExcAfter outcomes (mr - k) (postLoop outcomes mr k last).2.1 last)) ∧
    (∀ m2, (postLoop outcomes mr k last).1 = .error (.other m2) →
      1 ≤ (postLoop outcomes mr k last).2.1 ∧
      attempt2xx (outcomes (mr - k + (postLoop outcomes mr k last).2.1)) = some none) := by
  intro k
  induction k with
  | zero =>
    intro last _hk
    rw [show postLoop outcomes mr 0 last =
      (.error (.clickup (failMsg mr last)), 0, []) from rfl]
    simp only []
    refine ⟨Nat.le_refl 0, by omega, ?_, ?_, by simp, ?_, ?_⟩
    · intro j h1 h2
      omega
    · intro d
      simp
    · intro m hm
      simp only [Except.error.injEq, PyErr.clickup.injEq] at hm
      rw [← hm]
      rfl
    · intro m2 hm
      simp at hm
  | succ kp ih =>
    intro last hk
    have hbase : mr - kp = (mr - (kp + 1)) + 1 := by omega
    rw [postLoop.eq_2]
    cases houtcome : outcomes (mr - kp) with
    | http status body =>
      simp only []
      by_cases h2xx : 200 ≤ status ∧ status < 300
      · rw [if_pos h2xx]
        cases body with
        | some d0 =>
          simp only []
          refine ⟨by omega, by omega, ?_, ?_, by simp, ?_, ?_⟩
          · intro j h1 h2
            omega
          · intro d
            simp only [Except.ok.injEq]
            constructor
            · intro hd
              subst hd
              refine ⟨Nat.le_refl 1, ?_⟩
              rw [← hbase, houtcome]
              simp [attempt2xx, h2xx]
            · intro ⟨_, hd⟩
              rw [← hbase, houtcome] at hd
              simp [attempt2xx, h2xx] at hd
              exact hd
          · intro m hm
            simp at hm
          · intro m2 hm
            simp at hm
        | none =>
          simp only []
          refine ⟨by omega, by omega, ?_, ?_, by simp, ?_, ?_⟩
          · intro j h1 h2
            omega
          · intro d
            constructor
            · intro hd
              simp at hd
            · intro ⟨_, hd⟩
              rw [← hbase, houtcome] at hd
              simp [attempt2xx, h2xx] at hd
          · intro m hm
            simp at hm
          · intro m2 _hm
            refine ⟨Nat.le_refl 1, ?_⟩
            rw [← hbase, houtcome]
            simp [attempt2xx, h2xx]
      · by_cases hretry : status = 429 ∨ (500 ≤ status ∧ status < 600)
        · rw [if_neg h2xx, if_pos hretry]
          by_cases hk0 : kp = 0
          · subst hk0
            rw [if_pos rfl]
            simp only []
            refine ⟨by omega, by omega, ?_, ?_, by simp, ?_, ?_⟩
            · intro j h1 h2
              omega
            · intro d
              constructor
              · intro hd
                simp at hd
              · intro ⟨_, hd⟩
                rw [← hbase, houtcome] at hd
                simp [attempt2xx, h2xx] at hd
            · intro m hm
              simp only [Except.error.injEq, PyErr.clickup.injEq] at hm
              rw [← hm]
              rw [show lastExcAfter outcomes (mr - 1) 1 last =
                lastExcAfter outcomes (mr - 1 + 1) 0 (updExc (outcomes (mr - 1 + 1)) last)
                from rfl]
              rw [show mr - 1 + 1 = mr - 0 from by omega, houtcome]
              rfl
            · intro m2 hm
              simp at hm
          · rw [if_neg hk0]
            obtain ⟨hle, hone, hretr, hok, hsleep, hclick, hother⟩ := ih last (by omega)
            rcases hpl : postLoop outcomes mr kp last with ⟨res, n, sleeps⟩
            rw [hpl] at hle hone hretr hok hsleep hclick hother
            try simp only [] at *
            have hn1 : 1 ≤ n := hone (by omega)
            refine ⟨by omega, by omega, ?_, ?_, ?_, ?_, ?_⟩
            · intro j h1 h2
              by_cases hj : j = mr - kp
              · rw [hj, houtcome]
                exact hretry
              · exact hretr j (by omega) (by omega)
            · intro d
              rw [show mr - (kp + 1) + (n + 1) = mr - kp + n from by omega]
              constructor
              · intro hd
                obtain ⟨h1, h2⟩ := (hok d).mp hd
                exact ⟨by omega, h2⟩
              · intro ⟨h1, h2⟩
                exact (hok d).mpr ⟨hn1, h2⟩
            · rw [hsleep]
              rw [show n + 1 - 1 = (n - 1) + 1 from by omega]
              rw [List.range_succ_eq_map]
              simp only [List.map_cons, List.map_map]
              congr 1
              apply List.map_congr_left
              intro i _
              simp only [Function.comp_apply]
              congr 1
              omega
            · intro m hm
              have hmm := hclick m hm
              rw [hmm]
              rw [show lastExcAfter outcomes (mr - (kp + 1)) (n + 1) last =
                lastExcAfter outcomes (mr - (kp + 1) + 1) n
                  (updExc (outcomes (mr - (kp + 1) + 1)) last) from rfl]
              rw [← hbase, houtcome]
              rfl
            · intro m2 hm
              obtain ⟨h1, h2⟩ := hother m2 hm
              refine ⟨by omega, ?_⟩
              rw [show mr - (kp + 1) + (n + 1) = mr - kp + n from by omega]
              exact h2
        · rw [if_neg h2xx, if_neg hretry]
          simp only []
          refine ⟨by omega, by omega, ?_, ?_, by simp, ?_, ?_⟩
          · intro j h1 h2
            omega
          · intro d
            constructor
            · intro hd
              simp at hd
            · intro ⟨_, hd⟩
              rw [← hbase, houtcome] at hd
              simp [attempt2xx, h2xx] at hd
          · intro m hm
            simp only [Except.error.injEq, PyErr.clickup.injEq] at hm
            rw [← hm]
            rw [show lastExcAfter outcomes (mr - (kp + 1)) 1 last =
              lastExcAfter outcomes (mr - (kp + 1) + 1) 0
                (updExc (outcomes (mr - (kp + 1) + 1)) last) from rfl]
            rw [← hbase, houtcome]
            rfl
          · intro m2 hm
            simp at hm
    | netErr msg =>
      simp only []
      by_cases hk0 : kp = 0
      · subst hk0
        rw [if_pos rfl]
        simp only []
        refine ⟨by omega, by omega, ?_, ?_, by simp, ?_, ?_⟩
        · intro j h1 h2
          omega
        · intro d
          constructor
          · intro hd
            simp at hd
          · intro ⟨_, hd⟩
            rw [← hbase, houtcome] at hd
            simp [attempt2xx] at hd
        · intro m hm
          simp only [Except.error.injEq, PyErr.clickup.injEq] at hm
          rw [← hm]
          rw [show lastExcAfter outcomes (mr - 1) 1 last =
            lastExcAfter outcomes (mr - 1 + 1) 0 (updExc (outcomes (mr - 1 + 1)) last)
            from rfl]
          rw [show mr - 1 + 1 = mr - 0 from by omega, houtcome]
          rfl
        · intro m2 hm
          simp at hm
      · rw [if_neg hk0]
        obtain ⟨hle, hone, hretr, hok, hsleep, hclick, hother⟩ := ih (some msg) (by omega)
        rcases hpl : postLoop outcomes mr kp (some msg) with ⟨res, n, sleeps⟩
        rw [hpl] at hle hone hretr hok hsleep hclick hother
        try simp only [] at *
        have hn1 : 1 ≤ n := hone (by omega)
        refine ⟨by omega, by omega, ?_, ?_, ?_, ?_, ?_⟩
        · intro j h1 h2
          by_cases hj : j = mr - kp
          · rw [hj, houtcome]
            trivial
          · exact hretr j (by omega) (by omega)
        · intro d
          rw [show mr - (kp + 1) + (n + 1) = mr - kp + n from by omega]
          constructor
          · intro hd
            obtain ⟨h1, h2⟩ := (hok d).mp hd
            exact ⟨by omega, h2⟩
          · intro ⟨h1, h2⟩
            exact (hok d).mpr ⟨hn1, h2⟩
        · rw [hsleep]
          rw [show n + 1 - 1 = (n - 1) + 1 from by omega]
          rw [List.range_succ_eq_map]
          simp only [List.map_cons, List.map_map]
          congr 1
          apply List.map_congr_left
          intro i _
          simp only [Function.comp_apply]
          congr 1
          omega
        · intro m hm
          have hmm := hclick m hm
          rw [hmm]
          rw [show lastExcAfter outcomes (mr - (kp + 1)) (n + 1) last =
            lastExcAfter outcomes (mr - (kp + 1) + 1) n
              (updExc (outcomes (mr - (kp + 1) + 1)) last) from rfl]
          rw [← hbase, houtcome]
          rfl
        · intro m2 hm
          obtain ⟨h1, h2⟩ := hother m2 hm
          refine ⟨by omega, ?_⟩
          rw [show mr - (kp + 1) + (n + 1) = mr - kp + n from by omega]
          exact h2

theorem createTask_configured (cfg : ClickUpConfig) (hconf : isConfigured cfg = true)
    (name : String) (description : Option String) (due : Option ℤ) (parent : Option String)
    (outcomes : Nat → Attempt) :
    createTask cfg name description due parent outcomes =
      ((postWithRetries cfg outcomes).1, (postWithRetries cfg outcomes).2.1,
        (postWithRetries cfg outcomes).2.2,
        some { name := name, description := pyTruthyStrOpt description, due_date := due,
               parent := pyTruthyStrOpt parent, status := cfg.default_status }) := by
  rcases hpw : postWithRetries cfg outcomes with ⟨res, n, sleeps⟩
  unfold createTask
  rw [hconf, hpw]
  simp

theorem backoffDelay_ge_three (a : Nat) (h : 3 ≤ a) : backoffDelay a = 5 := by
  unfold backoffDelay backoffs
  rw [show min (a - 1) ([(0.5 : ℚ), 2, 5].length - 1) = 2 from by simp; omega]
  rfl

theorem postWithRetries_spec (cfg : ClickUpConfig) (outcomes : Nat → Attempt) :
    (postWithRetries cfg outcomes).2.1 ≤ cfg.max_retries ∧
    (∀ j, 1 ≤ j → j < (postWithRetries cfg outcomes).2.1 → retryableAttempt (outcomes j)) ∧
    (∀ d, (postWithRetries cfg outcomes).1 = .ok d ↔
      (1 ≤ (postWithRetries cfg outcomes).2.1 ∧
        attempt2xx (outcomes (postWithRetries cfg outcomes).2.1) = some (some d))) ∧
    ((postWithRetries cfg outcomes).2.2 =
      (List.range ((postWithRetries cfg outcomes).2.1 - 1)).map
        (fun i => backoffDelay (i + 1))) ∧
    (∀ m, (postWithRetries cfg outcomes).1 = .error (.clickup m) →
      m = failMsg cfg.max_retries
        (lastExcAfter outcomes 0 (postWithRetries cfg outcomes).2.1 none)) ∧
    (∀ m2, (postWithRetries cfg outcomes).1 = .error (.other m2) →
      1 ≤ (postWithRetries cfg outcomes).2.1 ∧
        attempt2xx (outcomes (postWithRetries cfg outcomes).2.1) = some none) := by
  have h := postLoop_spec outcomes cfg.max_retries cfg.max_retries none (Nat.le_refl _)
  simp only [Nat.sub_self, Nat.zero_add] at h
  obtain ⟨h1, _h2, h3, h4, h5, h6, h7⟩ := h
  exact ⟨h1, h3, h4, h5, h6, h7⟩

theorem failMsg_states_max (mr : Nat) (l : Option String) :
    List.IsInfix ("after " ++ toString mr ++ " attempts").toList (failMsg mr l).toList := by
  refine ⟨"ClickUp POST failed ".toList,
    (match l with
      | some e => ": " ++ e
      | none => "").toList, ?_⟩
  unfold failMsg
  cases l with
  | none => simp [String.toList, String.data_append]
  | some e => simp [String.toList, String.data_append]

/-! ## Claim theorems -/

/-- C2: for every lead input and UTC date, the dedupe key computed by
`_generate_dedupe_key` equals the hex rendering of SHA-256 of the string
formed by the lower-cased trimmed email, a `"|"` separator, the UTC date as
`YYYYMMDD`, a `"|"` separator, and the trimmed name, in that order. -/
theorem claim_C2_dedupe_key_formula (data : LeadCreate) (today : UTCDate) :
    generateDedupeKey data today = dedupeKeySpec data today := rfl

/-- C9: encoding any interests list (including the empty list) to the
storage string and decoding it back yields the same list with order and
values preserved; decoding an absent (empty/falsy) or invalid storage
string yields the empty list. -/
theorem claim_C9_interests_roundtrip :
    (∀ l : List String, interesesGetter (interesesSetter l) = PyVal.list (l.map PyVal.str)) ∧
    interesesGetter "" = PyVal.list [] ∧
    (∀ s : String, pyJsonLoads s = none → interesesGetter s = PyVal.list []) := by
  refine ⟨interesesGetter_setter, rfl, ?_⟩
  intro s hs
  unfold interesesGetter
  by_cases h : s = ""
  · simp [h]
  · rw [if_neg h, hs]

/-- C9 witness: the round trip and the invalid-storage fallback at concrete
inputs. -/
theorem claim_C9_witness :
    interesesGetter (interesesSetter ["diseño", "riego"]) =
      PyVal.list [PyVal.str "diseño", PyVal.str "riego"] ∧
    interesesGetter "not json" = PyVal.list [] :=
  ⟨claim_C9_interests_roundtrip.1 ["diseño", "riego"],
   claim_C9_interests_roundtrip.2.2 "not json" rfl⟩

/-- C7: `create_task` on a client whose (stripped) token or list id is empty
returns the skip sentinel without performing any POST attempt, sleep, or
payload construction; and the client is configured exactly when both the
token and the list id are non-empty. -/
theorem claim_C7_config_gate (cfg : ClickUpConfig) (name : String)
    (description : Option String) (due : Option ℤ) (parent : Option String)
    (outcomes : Nat → Attempt) :
    (cfg.token = "" ∨ cfg.list_id = "" →
      createTask cfg name description due parent outcomes =
        (.ok { skipped := true, reason := some "missing_token_or_list_id" }, 0, [], none)) ∧
    (isConfigured cfg = true ↔ cfg.token ≠ "" ∧ cfg.list_id ≠ "") := by
  constructor
  · intro h
    have hnc : isConfigured cfg = false := by
      unfold isConfigured
      rcases h with h | h <;> simp [h]
    unfold createTask
    rw [hnc]
    simp
  · unfold isConfigured
    constructor
    · intro h
      simp only [Bool.and_eq_true, Bool.not_eq_true', beq_eq_false_iff_ne, ne_eq] at h
      exact h
    · intro h
      simp only [Bool.and_eq_true, Bool.not_eq_true', beq_eq_false_iff_ne, ne_eq]
      exact h

/-- C7 witness: a client built with an empty token skips without any POST. -/
theorem claim_C7_witness :
    createTask (mkClickUpClient "" "list123" (some "Open")) "task" none none none
      (fun _ => .http 200 none) =
      (.ok { skipped := true, reason := some "missing_token_or_list_id" }, 0, [], none) :=
  (claim_C7_config_gate _ _ _ _ _ _).1 (Or.inl rfl)

/-- C5: on a configured client with the default `max_retries = 3`,
`create_task` makes at most 3 POST attempts; every non-final attempt's
outcome was retryable (network failure, HTTP 429 or 5xx) — so any other
4xx or any 2xx ends the loop at once; the call returns the parsed body
exactly when the final attempt got a 2xx response with a parseable body;
and the sleeps performed are the schedule values `0.5, 2.0, 5.0` seconds
indexed by attempt, capped at the last value from attempt 3 on. -/
theorem claim_C5_retry_policy (cfg : ClickUpConfig) (name : String)
    (description : Option String) (due : Option ℤ) (parent : Option String)
    (outcomes : Nat → Attempt) (hconf : isConfigured cfg = true)
    (hmr : cfg.max_retries = 3) :
    (createTask cfg name description due parent outcomes).2.1 ≤ 3 ∧
    (∀ j, 1 ≤ j → j < (createTask cfg name description due parent outcomes).2.1 →
      retryableAttempt (outcomes j)) ∧
    (∀ d, (createTask cfg name description due parent outcomes).1 = .ok d ↔
      (1 ≤ (createTask cfg name description due parent outcomes).2.1 ∧
        attempt2xx (outcomes (createTask cfg name description due parent outcomes).2.1) =
          some (some d))) ∧
    ((createTask cfg name description due parent outcomes).2.2.1 =
      (List.range ((createTask cfg name description due parent outcomes).2.1 - 1)).map
        (fun i => backoffDelay (i + 1))) ∧
    backoffDelay 1 = 0.5 ∧ backoffDelay 2 = 2 ∧
    (∀ a, 3 ≤ a → backoffDelay a = 5) := by
  obtain ⟨h1, h3, h4, h5, _h6, _h7⟩ := postWithRetries_spec cfg outcomes
  rw [createTask_configured cfg hconf name description due parent outcomes]
  simp only []
  exact ⟨by omega, h3, h4, h5, by simp [backoffDelay, backoffs],
    by simp [backoffDelay, backoffs], backoffDelay_ge_three⟩

/-- C5 witness: two 500s then a 200 succeed with 3 attempts and the sleeps
`[0.5, 2.0]`, instantiating the policy theorem at a concrete client. -/
theorem claim_C5_witness :
    ((createTask (mkClickUpClient "tok" "lst" none) "n" none none none
        (fun a => if a ≤ 2 then .http 500 none else .http 200 (some { id := some "T1" }))).2.1
      ≤ 3) ∧
    backoffDelay 1 = 0.5 :=
  ⟨(claim_C5_retry_policy (mkClickUpClient "tok" "lst" none) "n" none none none
      (fun a => if a ≤ 2 then .http 500 none else .http 200 (some { id := some "T1" }))
      rfl rfl).1,
   (claim_C5_retry_policy (mkClickUpClient "tok" "lst" none) "n" none none none
      (fun a => if a ≤ 2 then .http 500 none else .http 200 (some { id := some "T1" }))
      rfl rfl).2.2.2.2.1⟩

/-- C6 counterexample: a non-retryable HTTP 400 aborts after exactly one
attempt, yet the raised message reports the configured maximum ("after 3
attempts") and carries nothing about the actual attempt count or the
failing response. -/
theorem claim_C6_counterexample :
    (postWithRetries (mkClickUpClient "token" "list" none) (fun _ => .http 400 none)).2.1 = 1 ∧
    (postWithRetries (mkClickUpClient "token" "list" none) (fun _ => .http 400 none)).1 =
      .error (.clickup "ClickUp POST failed after 3 attempts") ∧
    ¬ List.IsInfix ("after 1 attempts").toList
      ("ClickUp POST failed after 3 attempts").toList ∧
    ¬ List.IsInfix ("400").toList ("ClickUp POST failed after 3 attempts").toList :=
  ⟨rfl, rfl, by decide, by decide⟩

/-- C6 (amended): whenever `create_task`'s retried POST fails without any
attempt obtaining a 2xx response, it raises a `ClickUpError` whose message
states the configured maximum attempt count (not the number of attempts
actually made) and appends the text of the most recent network-level
exception if one occurred; HTTP failure responses contribute nothing to the
message. -/
theorem claim_C6_failure_message (cfg : ClickUpConfig) (outcomes : Nat → Attempt)
    (hno2xx : ∀ j, 1 ≤ j → j ≤ (postWithRetries cfg outcomes).2.1 →
      attempt2xx (outcomes j) = none) :
    (postWithRetries cfg outcomes).1 =
      .error (.clickup (failMsg cfg.max_retries
        (lastExcAfter outcomes 0 (postWithRetries cfg outcomes).2.1 none))) ∧
    List.IsInfix ("after " ++ toString cfg.max_retries ++ " attempts").toList
      (failMsg cfg.max_retries
        (lastExcAfter outcomes 0 (postWithRetries cfg outcomes).2.1 none)).toList := by
  obtain ⟨_h1, h3, h4, _h5, h6, h7⟩ := postWithRetries_spec cfg outcomes
  refine ⟨?_, failMsg_states_max _ _⟩
  cases hres : (postWithRetries cfg outcomes).1 with
  | ok d =>
    obtain ⟨hn, h2⟩ := (h4 d).mp hres
    rw [hno2xx _ hn (Nat.le_refl _)] at h2
    exact absurd h2 (by simp)
  | error e =>
    cases e with
    | clickup m =>
      exact congrArg Except.error (congrArg PyErr.clickup (h6 m hres))
    | other m2 =>
      obtain ⟨hn, h2⟩ := h7 m2 hres
      rw [hno2xx _ hn (Nat.le_refl _)] at h2
      exact absurd h2 (by simp)

/-- C6 witness for the amended claim: all-network-failure run raises the
formula message, ending with the last network exception text. -/
theorem claim_C6_witness :
    (postWithRetries (mkClickUpClient "tok" "lst" none) (fun a => .netErr (toString a))).1 =
      .error (.clickup "ClickUp POST failed after 3 attempts: 3") :=
  (claim_C6_failure_message (mkClickUpClient "tok" "lst" none)
    (fun a => .netErr (toString a)) (fun _ _ _ => rfl)).1

/-- C4: the sync step after first creation never propagates an exception:
when the client is unconfigured it records a skip and stops; when the body
raises any exception (a `ClickUpError` after exhausted retries or anything
else, e.g. an unparseable response), the handler records it as `tm_error`
or `tm_unexpected_error`, leaves the store untouched, and returns normally;
a normally-finishing body's result is passed through. -/
theorem claim_C4_sync_never_raises (cfg : ClickUpConfig) (behavior : Nat → Nat → Attempt)
    (setting : String) (now : ℚ) (lead : Lead) (hasSession : Bool) (db : DB) :
    (isConfigured cfg = false →
      maybeCreateClickupItems cfg behavior setting now lead hasSession db =
        (db, [.tmSkipped], [])) ∧
    (∀ e evs pays, isConfigured cfg = true →
      clickupBody cfg behavior setting now lead hasSession db = (.error e, evs, pays) →
      maybeCreateClickupItems cfg behavior setting now lead hasSession db =
        (db, evs ++ [match e with
          | .clickup m => Event.tmError m
          | .other m => Event.tmUnexpectedError m], pays)) ∧
    (∀ db2 evs pays, isConfigured cfg = true →
      clickupBody cfg behavior setting now lead hasSession db = (.ok db2, evs, pays) →
      maybeCreateClickupItems cfg behavior setting now lead hasSession db =
        (db2, evs, pays)) := by
  refine ⟨?_, ?_, ?_⟩
  · intro h
    unfold maybeCreateClickupItems
    rw [h]
    simp
  · intro e evs pays hconf hbody
    unfold maybeCreateClickupItems
    rw [hconf, hbody]
    cases e <;> simp
  · intro db2 evs pays hconf hbody
    unfold maybeCreateClickupItems
    rw [hconf, hbody]
    simp

theorem createTask_first_success (cfg : ClickUpConfig) (hconf : isConfigured cfg = true)
    (hmr : 1 ≤ cfg.max_retries) (name : String) (description : Option String)
    (due : Option ℤ) (parent : Option String) (outcomes : Nat → Attempt)
    (st : Nat) (d : TaskDict) (hout : outcomes 1 = .http st (some d))
    (h2 : 200 ≤ st ∧ st < 300) :
    createTask cfg name description due parent outcomes =
      (.ok d, 1, [],
        some { name := name, description := pyTruthyStrOpt description, due_date := due,
               parent := pyTruthyStrOpt parent, status := cfg.default_status }) := by
  have hpw : postWithRetries cfg outcomes = (.ok d, 1, []) := by
    unfold postWithRetries
    obtain ⟨k, hk⟩ : ∃ k, cfg.max_retries = k + 1 := ⟨cfg.max_retries - 1, by omega⟩
    rw [hk, postLoop.eq_2, show k + 1 - k = 1 from by omega, hout]
    simp [h2]
  rw [createTask_configured cfg hconf name description due parent outcomes, hpw]

theorem leadDescripcion_ne_empty (lead : Lead) : leadDescripcion lead ≠ "" := by
  intro h
  have hdata := congrArg String.data h
  simp only [leadDescripcion, String.data_append] at hdata
  exact absurd hdata (by simp [String.data])

theorem subtaskLoop_success (cfg : ClickUpConfig) (hconf : isConfigured cfg = true)
    (hmr : 1 ≤ cfg.max_retries) (behavior : Nat → Nat → Attempt) (parentId : Option String)
    (dueMs : Option ℤ) :
    ∀ (titles : List String) (idx : Nat) (st : Nat → Nat) (bd : Nat → TaskDict),
    (∀ i, i < titles.length → behavior (idx + 1 + i) 1 = .http (st i) (some (bd i))) →
    (∀ i, i < titles.length → 200 ≤ st i ∧ st i < 300) →
    subtaskLoop cfg behavior parentId dueMs titles idx =
      (.ok ((List.range titles.length).map (fun i =>
          match (bd i).id with
          | none => ""
          | some s => s)),
       (List.range titles.length).map (fun i =>
         Event.tmSubtaskCreated parentId (bd i).id (titles.getD i "")),
       (List.range titles.length).map (fun i =>
         { name := titles.getD i "", description := none,
           due_date := if idx + i = 0 then dueMs else none,
           parent := pyTruthyStrOpt parentId, status := cfg.default_status })) := by
  intro titles
  induction titles with
  | nil =>
    intro idx st bd _ _
    simp [subtaskLoop]
  | cons t ts ih =>
    intro idx st bd hb h2
    have hb0 : behavior (idx + 1) 1 = .http (st 0) (some (bd 0)) := by
      have := hb 0 (by simp)
      simpa using this
    have hct := createTask_first_success cfg hconf hmr t none (if idx = 0 then dueMs else none)
      parentId (behavior (idx + 1)) (st 0) (bd 0) hb0 (h2 0 (by simp))
    have hrec := ih (idx + 1) (fun i => st (i + 1)) (fun i => bd (i + 1))
      (fun i hi => by
        have := hb (i + 1) (by simp only [List.length_cons]; omega)
        rw [show idx + 1 + (i + 1) = idx + 1 + 1 + i from by omega] at this
        exact this)
      (fun i hi => h2 (i + 1) (by simp only [List.length_cons]; omega))
    rw [subtaskLoop, hct]
    simp only []
    rw [hrec]
    simp only [List.length_cons, List.range_succ_eq_map, List.map_cons, List.map_map,
      List.replicate_one, List.singleton_append, Function.comp, Nat.succ_eq_add_one,
      List.getD_cons_zero, List.getD_cons_succ, Nat.add_zero, Prod.mk.injEq, Except.ok.injEq]
    refine ⟨?_, ?_, ?_⟩
    · rfl
    · rfl
    · congr 1
      apply List.map_congr_left
      intro i _
      simp only [Function.comp_apply, Nat.succ_eq_add_one, List.getD_cons_succ]
      rw [show idx + (i + 1) = idx + 1 + i from by omega]

/-- C8: on a successful run with a configured client (every POST answered
first-try with a 2xx parseable body, the parent response not the skip
sentinel and carrying a non-empty id), the sync step creates one subtask
per configured title in order, passing the parent id to each; only the
first subtask gets a due date, the epoch-milliseconds timestamp of now
plus 24 hours; the collected subtask ids use `""` when a response lacks an
id; with a session attached the parent and subtask ids are written back to
the lead row, and without one the step stops after a warning without
writing back. -/
theorem claim_C8_success_sync (cfg : ClickUpConfig) (behavior : Nat → Nat → Attempt)
    (setting : String) (now : ℚ) (lead : Lead) (hasSession : Bool) (db : DB)
    (hconf : isConfigured cfg = true) (hmr : 1 ≤ cfg.max_retries)
    (st : Nat → Nat) (bd : Nat → TaskDict) (pid : String)
    (hb : ∀ i, i ≤ (subtasksFromEnv setting).length →
      behavior i 1 = .http (st i) (some (bd i)))
    (h2 : ∀ i, i ≤ (subtasksFromEnv setting).length → 200 ≤ st i ∧ st i < 300)
    (hskip : (bd 0).skipped = false)
    (hpid : (bd 0).id = some pid) (hpidne : pid ≠ "") :
    maybeCreateClickupItems cfg behavior setting now lead hasSession db =
      ((if hasSession then
          updateLead db lead.id (some pid)
            ((List.range (subtasksFromEnv setting).length).map (fun i =>
              match (bd (i + 1)).id with
              | none => ""
              | some s => s)) now
        else db),
       (Event.tmTaskCreated (some pid) ::
          (List.range (subtasksFromEnv setting).length).map (fun i =>
            Event.tmSubtaskCreated (some pid) (bd (i + 1)).id
              ((subtasksFromEnv setting).getD i ""))) ++
         [if hasSession then
            Event.tmPersistedIds lead.id (some pid) (subtasksFromEnv setting).length
          else Event.tmPersistIdsNoSession lead.id],
       { name := "Nuevo lead: " ++ lead.nombre, description := some (leadDescripcion lead),
         due_date := none, parent := none, status := cfg.default_status } ::
         (List.range (subtasksFromEnv setting).length).map (fun i =>
           { name := (subtasksFromEnv setting).getD i "", description := none,
             due_date := if i = 0 then
                 (if subtasksFromEnv setting = [] then none
                  else some (epochMs (now + 86400)))
               else none,
             parent := some pid, status := cfg.default_status })) := by
  have hds : pyTruthyStrOpt (some (leadDescripcion lead)) = some (leadDescripcion lead) := by
    simp [pyTruthyStrOpt, leadDescripcion_ne_empty lead]
  have hpp : pyTruthyStrOpt (some pid) = some pid := by
    simp [pyTruthyStrOpt, hpidne]
  have hpt := createTask_first_success cfg hconf hmr ("Nuevo lead: " ++ lead.nombre)
    (some (leadDescripcion lead)) none none (behavior 0) (st 0) (bd 0)
    (hb 0 (by omega)) (h2 0 (by omega))
  have hsl := subtaskLoop_success cfg hconf hmr behavior (some pid)
    (if subtasksFromEnv setting = [] then none else some (epochMs (now + 86400)))
    (subtasksFromEnv setting) 0 (fun i => st (i + 1)) (fun i => bd (i + 1))
    (fun i hi => by
      rw [show 0 + 1 + i = i + 1 from by omega]
      exact hb (i + 1) (by omega))
    (fun i hi => h2 (i + 1) (by omega))
  unfold maybeCreateClickupItems
  rw [if_neg (by rw [hconf]; simp)]
  unfold clickupBody
  rw [hpt]
  simp only []
  rw [hskip, hpid]
  simp only [Bool.false_eq_true, if_false]
  rw [hsl]
  simp only [hds, hpp, List.replicate_one, List.singleton_append, List.length_map,
    List.length_range, Nat.zero_add]
  cases hasSession with
  | false => simp [pyTruthyStrOpt]
  | true => simp [pyTruthyStrOpt]

theorem claim_C4_witness :
    maybeCreateClickupItems (mkClickUpClient "tok" "lst" none) (fun _ _ => .netErr "boom")
        "" 0 sampleLead true sampleDB =
      (sampleDB, [Event.tmError "ClickUp POST failed after 3 attempts: boom"],
        List.replicate 3
          { name := "Nuevo lead: Ana", description := some (leadDescripcion sampleLead),
            due_date := none, parent := none, status := none }) :=
  (claim_C4_sync_never_raises (mkClickUpClient "tok" "lst" none) (fun _ _ => .netErr "boom")
      "" 0 sampleLead true sampleDB).2.1
    (.clickup "ClickUp POST failed after 3 attempts: boom") []
    (List.replicate 3
      { name := "Nuevo lead: Ana", description := some (leadDescripcion sampleLead),
        due_date := none, parent := none, status := none })
    rfl rfl

theorem claim_C8_witness :
    maybeCreateClickupItems (mkClickUpClient "tok" "lst" none)
        (fun _ _ => .http 200 (some { id := some "T" })) "" 0 sampleLead true sampleDB =
      (updateLead sampleDB sampleLead.id (some "T")
          ((List.range (subtasksFromEnv "").length).map (fun _ => "T")) 0,
       (Event.tmTaskCreated (some "T") ::
          (List.range (subtasksFromEnv "").length).map (fun i =>
            Event.tmSubtaskCreated (some "T") (some "T") ((subtasksFromEnv "").getD i ""))) ++
         [Event.tmPersistedIds sampleLead.id (some "T") (subtasksFromEnv "").length],
       { name := "Nuevo lead: Ana", description := some (leadDescripcion sampleLead),
         due_date := none, parent := none, status := none } ::
         (List.range (subtasksFromEnv "").length).map (fun i =>
           { name := (subtasksFromEnv "").getD i "", description := none,
             due_date := if i = 0 then
                 (if subtasksFromEnv "" = [] then none
                  else some (epochMs ((0 : ℚ) + 86400)))
               else none,
             parent := some "T", status := none })) :=
  claim_C8_success_sync (mkClickUpClient "tok" "lst" none)
    (fun _ _ => .http 200 (some { id := some "T" })) "" 0 sampleLead true sampleDB
    rfl (by decide) (fun _ => 200) (fun _ => { id := some "T" }) "T"
    (fun _ _ => rfl) (fun _ _ => by norm_num) rfl rfl (by decide)

theorem foldl_latest_some : ∀ (l : List Lead) (acc : Option Lead) (b : Lead),
    l.foldl (fun acc r => match acc with
      | none => some r
      | some a => if a.created_at < r.created_at then some r else some a) acc = some b →
    ((acc = some b ∨ b ∈ l) ∧
     (∀ a, acc = some a → a.created_at ≤ b.created_at) ∧
     (∀ r ∈ l, r.created_at ≤ b.created_at)) := by
  intro l
  induction l with
  | nil =>
    intro acc b h
    simp only [List.foldl_nil] at h
    refine ⟨Or.inl h, ?_, by simp⟩
    intro a ha
    rw [ha] at h
    cases h
    exact le_refl _
  | cons r t ih =>
    intro acc b h
    simp only [List.foldl_cons] at h
    obtain ⟨h1, h2, h3⟩ := ih _ b h
    have hstep : ∀ x, (match acc with
        | none => some r
        | some a => if a.created_at < r.created_at then some r else some a) = some x →
        (acc = some x ∨ x = r) ∧ r.created_at ≤ x.created_at ∧
          (∀ a, acc = some a → a.created_at ≤ x.created_at) := by
      intro x hx
      cases acc with
      | none =>
        simp only [Option.some.injEq] at hx
        exact ⟨Or.inr hx.symm, le_of_eq (congrArg Lead.created_at hx),
          fun a ha => by cases ha⟩
      | some a =>
        simp only [] at hx
        by_cases hlt : a.created_at < r.created_at
        · rw [if_pos hlt] at hx
          cases hx
          exact ⟨Or.inr rfl, le_refl _,
            fun a2 ha2 => by cases ha2; exact le_of_lt hlt⟩
        · rw [if_neg hlt] at hx
          cases hx
          exact ⟨Or.inl rfl, le_of_not_lt hlt,
            fun a2 ha2 => by cases ha2; exact le_refl _⟩
    refine ⟨?_, ?_, ?_⟩
    · rcases h1 with hsb | hbt
      · rcases (hstep b hsb).1 with hab | hbr
        · exact Or.inl hab
        · exact Or.inr (by rw [hbr]; exact List.mem_cons_self r t)
      · exact Or.inr (List.mem_cons_of_mem r hbt)
    · intro a ha
      subst ha
      by_cases hlt : a.created_at < r.created_at
      · exact le_trans (le_of_lt hlt)
          (h2 r (show (if a.created_at < r.created_at then some r else some a) = some r
            from by rw [if_pos hlt]))
      · exact h2 a (show (if a.created_at < r.created_at then some r else some a) = some a
          from by rw [if_neg hlt])
    · intro r2 hr2
      rcases List.mem_cons.mp hr2 with hr2r | hr2t
      · subst hr2r
        cases acc with
        | none => exact h2 r2 rfl
        | some a0 =>
          by_cases hlt : a0.created_at < r2.created_at
          · exact h2 r2
              (show (if a0.created_at < r2.created_at then some r2 else some a0) = some r2
                from by rw [if_pos hlt])
          · exact le_trans (le_of_not_lt hlt)
              (h2 a0
                (show (if a0.created_at < r2.created_at then some r2 else some a0) = some a0
                  from by rw [if_neg hlt]))
      · exact h3 r2 hr2t

theorem foldl_latest_none : ∀ (l : List Lead) (acc : Option Lead),
    l.foldl (fun acc r => match acc with
      | none => some r
      | some a => if a.created_at < r.created_at then some r else some a) acc = none →
    acc = none ∧ l = [] := by
  intro l
  induction l with
  | nil => intro acc h; exact ⟨h, rfl⟩
  | cons r t ih =>
    intro acc h
    simp only [List.foldl_cons] at h
    have := (ih _ h).1
    cases acc with
    | none => simp at this
    | some a =>
      simp only [] at this
      by_cases hlt : a.created_at < r.created_at
      · rw [if_pos hlt] at this; cases this
      · rw [if_neg hlt] at this; cases this

theorem latestByCorreo_some (db : DB) (c : String) (fb : Lead)
    (h : latestByCorreo db c = some fb) :
    fb ∈ db.rows ∧ fb.correo = c ∧
      ∀ r ∈ db.rows, r.correo = c → r.created_at ≤ fb.created_at := by
  unfold latestByCorreo at h
  obtain ⟨h1, _h2, h3⟩ := foldl_latest_some _ none fb h
  rcases h1 with habs | hmem
  · cases habs
  · have hmem2 := List.mem_filter.mp hmem
    refine ⟨hmem2.1, by simpa using hmem2.2, ?_⟩
    intro r hr hrc
    exact h3 r (List.mem_filter.mpr ⟨hr, by simpa using hrc⟩)

theorem latestByCorreo_none (db : DB) (c : String)
    (h : latestByCorreo db c = none) :
    ∀ r ∈ db.rows, r.correo ≠ c := by
  unfold latestByCorreo at h
  have hnil := (foldl_latest_none _ none h).2
  intro r hr hrc
  have : r ∈ db.rows.filter (fun r => r.correo == c) :=
    List.mem_filter.mpr ⟨hr, by simpa using hrc⟩
  rw [hnil] at this
  cases this

/-- C3: when the insert hits the uniqueness constraint (a row with the
dedupe key is already committed), the engine rolls back (the returned store
is the one the recovery SELECTs see, with no inserted row) and resolves:
if the lookup by dedupe key finds a row it returns that row with
`created = false`; otherwise every stored row misses the key, and if any
row matches the normalized email the engine returns a most recently
created such row with `created = false`; otherwise no row matches the
email either and the `IntegrityError` is re-raised to the caller. -/
theorem claim_C3_conflict_resolution (cfg : ClickUpConfig) (behavior : Nat → Nat → Attempt)
    (setting : String) (sCommit sQuery : DB) (data : LeadCreate) (today : UTCDate) (now : ℚ)
    (hdup : sCommit.rows.any
      (fun r => r.dedupe_key == generateDedupeKey data today) = true) :
    (∀ e, sQuery.rows.find? (fun r => r.dedupe_key == generateDedupeKey data today) = some e →
      createOrGetLead cfg behavior setting sCommit sQuery data today now =
          .ok (sQuery, e, false, [], []) ∧
        e ∈ sQuery.rows ∧ e.dedupe_key = generateDedupeKey data today) ∧
    (sQuery.rows.find? (fun r => r.dedupe_key == generateDedupeKey data today) = none →
      (∀ r ∈ sQuery.rows, r.dedupe_key ≠ generateDedupeKey data today) ∧
      (∀ fb, latestByCorreo sQuery (pyLower data.correo) = some fb →
        createOrGetLead cfg behavior setting sCommit sQuery data today now =
            .ok (sQuery, fb, false, [], []) ∧
          fb ∈ sQuery.rows ∧ fb.correo = pyLower data.correo ∧
          ∀ r ∈ sQuery.rows, r.correo = pyLower data.correo →
            r.created_at ≤ fb.created_at) ∧
      (latestByCorreo sQuery (pyLower data.correo) = none →
        createOrGetLead cfg behavior setting sCommit sQuery data today now = .error () ∧
        ∀ r ∈ sQuery.rows, r.correo ≠ pyLower data.correo)) := by
  refine ⟨?_, ?_⟩
  · intro e hfind
    refine ⟨?_, List.mem_of_find?_eq_some hfind, by simpa using List.find?_some hfind⟩
    unfold createOrGetLead
    simp only [hdup, if_true, hfind]
  · intro hnone
    refine ⟨?_, ?_, ?_⟩
    · intro r hr
      have := List.find?_eq_none.mp hnone r hr
      simpa using this
    · intro fb hfb
      obtain ⟨hm, hc, hmax⟩ := latestByCorreo_some sQuery (pyLower data.correo) fb hfb
      refine ⟨?_, hm, hc, hmax⟩
      unfold createOrGetLead
      simp only [hdup, if_true, hnone, hfb]
    · intro hlnone
      refine ⟨?_, latestByCorreo_none sQuery (pyLower data.correo) hlnone⟩
      unfold createOrGetLead
      simp only [hdup, if_true, hnone, hlnone]

theorem claim_C3_witness :
    createOrGetLead (mkClickUpClient "tok" "lst" none) (fun _ _ => .netErr "boom") ""
        sampleKeyDB sampleKeyDB sampleData sampleToday 0 =
        .ok (sampleKeyDB, sampleKeyRow, false, [], []) ∧
      sampleKeyRow ∈ sampleKeyDB.rows ∧
      sampleKeyRow.dedupe_key = generateDedupeKey sampleData sampleToday :=
  (claim_C3_conflict_resolution (mkClickUpClient "tok" "lst" none) (fun _ _ => .netErr "boom")
      "" sampleKeyDB sampleKeyDB sampleData sampleToday 0
      (by simp [sampleKeyDB, sampleKeyRow])).1
    sampleKeyRow (by simp [sampleKeyDB, sampleKeyRow])

theorem generateDedupeKey_congr (d1 d2 : LeadCreate) (today : UTCDate)
    (hmail : pyLower (pyStrip d2.correo) = pyLower (pyStrip d1.correo))
    (hname : pyStrip d2.nombre = pyStrip d1.nombre) :
    generateDedupeKey d2 today = generateDedupeKey d1 today := by
  unfold generateDedupeKey
  rw [hmail, hname]

theorem sameCore_refl (r : Lead) : sameCore r r :=
  ⟨rfl, rfl, rfl, rfl, rfl, rfl, rfl, rfl⟩

theorem forall₂_sameCore_refl (l : List Lead) : List.Forall₂ sameCore l l :=
  List.forall₂_same.mpr (fun r _ => sameCore_refl r)

theorem updateLead_frame (db : DB) (lid : Nat) (pid : Option String) (ids : List String)
    (now : ℚ) :
    (updateLead db lid pid ids now).nextId = db.nextId ∧
    List.Forall₂ sameCore db.rows (updateLead db lid pid ids now).rows := by
  refine ⟨rfl, ?_⟩
  unfold updateLead
  simp only []
  rw [List.forall₂_map_right_iff]
  apply List.forall₂_same.mpr
  intro r _
  by_cases h : r.id = lid
  · rw [if_pos h]
    exact ⟨rfl, rfl, rfl, rfl, rfl, rfl, rfl, rfl⟩
  · rw [if_neg h]
    exact sameCore_refl r

theorem clickupBody_state (cfg : ClickUpConfig) (behavior : Nat → Nat → Attempt)
    (setting : String) (now : ℚ) (lead : Lead) (hasSession : Bool) (db : DB) :
    ∀ db2 evs pays,
      clickupBody cfg behavior setting now lead hasSession db = (.ok db2, evs, pays) →
      db2 = db ∨ ∃ pid ids, db2 = updateLead db lead.id pid ids now := by
  intro db2 evs pays h
  unfold clickupBody at h
  rcases hct : createTask cfg ("Nuevo lead: " ++ lead.nombre) (some (leadDescripcion lead))
      none none (behavior 0) with ⟨res, n, sl, pay⟩
  rw [hct] at h
  simp only [] at h
  cases res with
  | error e => simp at h
  | ok parent =>
    simp only [] at h
    by_cases hsk : parent.skipped = true
    · rw [if_pos hsk] at h
      simp only [Prod.mk.injEq, Except.ok.injEq] at h
      exact Or.inl h.1.symm
    · rw [if_neg hsk] at h
      rcases hsl : subtaskLoop cfg behavior parent.id
          (if subtasksFromEnv setting = [] then none else some (epochMs (now + 86400)))
          (subtasksFromEnv setting) 0 with ⟨sres, sevs, spays⟩
      rw [hsl] at h
      cases sres with
      | error e => simp at h
      | ok sids =>
        cases hasSession with
        | false =>
          simp only [Bool.false_eq_true, Bool.true_eq_false, eq_self_iff_true, if_true,
            if_false, Prod.mk.injEq, Except.ok.injEq] at h
          exact Or.inl h.1.symm
        | true =>
          simp only [Bool.false_eq_true, Bool.true_eq_false, eq_self_iff_true, if_true,
            if_false, Prod.mk.injEq, Except.ok.injEq] at h
          exact Or.inr ⟨parent.id, sids, h.1.symm⟩

theorem maybeCreateClickupItems_frame (cfg : ClickUpConfig) (behavior : Nat → Nat → Attempt)
    (setting : String) (now : ℚ) (lead : Lead) (hasSession : Bool) (db : DB) :
    (maybeCreateClickupItems cfg behavior setting now lead hasSession db).1.nextId =
        db.nextId ∧
    List.Forall₂ sameCore db.rows
      (maybeCreateClickupItems cfg behavior setting now lead hasSession db).1.rows := by
  unfold maybeCreateClickupItems
  by_cases hc : isConfigured cfg = false
  · rw [if_pos hc]
    exact ⟨rfl, forall₂_sameCore_refl db.rows⟩
  · rw [if_neg hc]
    rcases hb : clickupBody cfg behavior setting now lead hasSession db with ⟨res, evs, pays⟩
    cases res with
    | ok db2 =>
      rcases clickupBody_state cfg behavior setting now lead hasSession db db2 evs pays hb with
        heq | ⟨pid, ids, heq⟩
      · rw [heq]
        exact ⟨rfl, forall₂_sameCore_refl _⟩
      · rw [heq]
        exact ⟨(updateLead_frame db lead.id pid ids now).1,
          (updateLead_frame db lead.id pid ids now).2⟩
    | error e =>
      cases e with
      | clickup m => exact ⟨rfl, forall₂_sameCore_refl _⟩
      | other m => exact ⟨rfl, forall₂_sameCore_refl _⟩

theorem forall₂_mem_right {α β : Type} {R : α → β → Prop} :
    ∀ {l1 : List α} {l2 : List β}, List.Forall₂ R l1 l2 → ∀ a ∈ l1, ∃ b ∈ l2, R a b := by
  intro l1 l2 h
  induction h with
  | nil => intro a ha; cases ha
  | cons hR hF ih =>
    intro a ha
    rcases List.mem_cons.mp ha with rfl | hmem
    · exact ⟨_, List.mem_cons_self _ _, hR⟩
    · obtain ⟨b, hb, hRb⟩ := ih a hmem
      exact ⟨b, List.mem_cons_of_mem _ hb, hRb⟩

theorem find?_forall₂ (p : Lead → Bool) (hp : ∀ a b, sameCore a b → p b = p a) :
    ∀ {l1 l2 : List Lead}, List.Forall₂ sameCore l1 l2 →
      ∀ a, l1.find? p = some a → ∃ b, l2.find? p = some b ∧ sameCore a b := by
  intro l1 l2 h
  induction h with
  | nil => intro a ha; cases ha
  | @cons x y l1' l2' hR hF ih =>
    intro a ha
    by_cases hpx : p x = true
    · rw [List.find?_cons_of_pos _ hpx, Option.some.injEq] at ha
      subst ha
      exact ⟨y, List.find?_cons_of_pos _ (by rw [hp x y hR, hpx]), hR⟩
    · rw [List.find?_cons_of_neg _ hpx] at ha
      obtain ⟨b, hb, hRb⟩ := ih a ha
      exact ⟨b, by rw [List.find?_cons_of_neg _ (by rw [hp x y hR]; exact hpx), hb], hRb⟩

theorem find?_append_right_single (l : List Lead) (p : Lead → Bool)
    (hnone : ∀ r ∈ l, ¬ p r = true) (x : Lead) (hx : p x = true) :
    (l ++ [x]).find? p = some x := by
  induction l with
  | nil => simp [List.find?_cons_of_pos _ hx]
  | cons r t ih =>
    rw [List.cons_append, List.find?_cons_of_neg _ (hnone r (List.mem_cons_self r t))]
    exact ih (fun r2 h2 => hnone r2 (List.mem_cons_of_mem _ h2))

theorem createOrGetLead_create_path (cfg : ClickUpConfig) (behavior : Nat → Nat → Attempt)
    (setting : String) (s : DB) (d : LeadCreate) (today : UTCDate) (now : ℚ)
    (hnokey : ∀ r ∈ s.rows, r.dedupe_key ≠ generateDedupeKey d today)
    (hids : ∀ r ∈ s.rows, r.id < s.nextId) :
    ∃ lead1,
      createOrGetLead cfg behavior setting s s d today now =
        .ok ((maybeCreateClickupItems cfg behavior setting now (newLeadOf s d today now) true
              (insertDB s (newLeadOf s d today now))).1,
          lead1, true,
          (maybeCreateClickupItems cfg behavior setting now (newLeadOf s d today now) true
              (insertDB s (newLeadOf s d today now))).2.1,
          (maybeCreateClickupItems cfg behavior setting now (newLeadOf s d today now) true
              (insertDB s (newLeadOf s d today now))).2.2) ∧
      sameCore (newLeadOf s d today now) lead1 := by
  have hany : s.rows.any (fun r => r.dedupe_key == generateDedupeKey d today) = false := by
    rw [List.any_eq_false]
    intro r hr
    simpa using hnokey r hr
  have hframe := maybeCreateClickupItems_frame cfg behavior setting now
    (newLeadOf s d today now) true (insertDB s (newLeadOf s d today now))
  have hfind1 : (insertDB s (newLeadOf s d today now)).rows.find?
      (fun r => r.id == (newLeadOf s d today now).id) = some (newLeadOf s d today now) := by
    apply find?_append_right_single
    · intro r hr
      simp only [newLeadOf, beq_iff_eq]
      exact Nat.ne_of_lt (hids r hr)
    · simp
  obtain ⟨lead1, hfind2, hsame⟩ := find?_forall₂
    (fun r => r.id == (newLeadOf s d today now).id)
    (fun a b hab => by simp only []; rw [hab.1]) hframe.2 (newLeadOf s d today now) hfind1
  refine ⟨lead1, ?_, hsame⟩
  unfold createOrGetLead
  simp only [hany, Bool.false_eq_true, if_false]
  rcases hm : maybeCreateClickupItems cfg behavior setting now (newLeadOf s d today now) true
      (insertDB s (newLeadOf s d today now)) with ⟨s2, evs, pays⟩
  rw [hm] at hfind2
  simp only [hm, hfind2, Option.getD_some]

theorem doubleSubmit_spec (cfg cfg2 : ClickUpConfig) (behavior behavior2 : Nat → Nat → Attempt)
    (setting : String) (s : DB) (d1 d2 : LeadCreate) (today : UTCDate) (n1 n2 : ℚ)
    (hmail : pyLower (pyStrip d2.correo) = pyLower (pyStrip d1.correo))
    (hname : pyStrip d2.nombre = pyStrip d1.nombre)
    (hnokey : ∀ r ∈ s.rows, r.dedupe_key ≠ generateDedupeKey d1 today)
    (hids : ∀ r ∈ s.rows, r.id < s.nextId) :
    ∃ s1 lead1 evs pays lead2,
      createOrGetLead cfg behavior setting s s d1 today n1 =
        .ok (s1, lead1, true, evs, pays) ∧
      createOrGetLead cfg2 behavior2 setting s1 s1 d2 today n2 =
        .ok (s1, lead2, false, [], []) ∧
      sameCore (newLeadOf s d1 today n1) lead1 ∧
      sameCore (newLeadOf s d1 today n1) lead2 := by
  obtain ⟨lead1, h1, hsame1⟩ :=
    createOrGetLead_create_path cfg behavior setting s d1 today n1 hnokey hids
  have hframe := maybeCreateClickupItems_frame cfg behavior setting n1
    (newLeadOf s d1 today n1) true (insertDB s (newLeadOf s d1 today n1))
  have hfindk : (insertDB s (newLeadOf s d1 today n1)).rows.find?
      (fun r => r.dedupe_key == generateDedupeKey d1 today) =
      some (newLeadOf s d1 today n1) := by
    apply find?_append_right_single
    · intro r hr
      simpa using hnokey r hr
    · simp [newLeadOf]
  obtain ⟨lead2, hfind2, hsame2⟩ := find?_forall₂
    (fun r => r.dedupe_key == generateDedupeKey d1 today)
    (fun a b hab => by simp only []; rw [hab.2.2.2.2.2.2.2]) hframe.2
    (newLeadOf s d1 today n1) hfindk
  have hcong := generateDedupeKey_congr d1 d2 today hmail hname
  rw [← hcong] at hfind2
  have hany2 : (maybeCreateClickupItems cfg behavior setting n1 (newLeadOf s d1 today n1) true
      (insertDB s (newLeadOf s d1 today n1))).1.rows.any
      (fun r => r.dedupe_key == generateDedupeKey d2 today) = true := by
    rw [List.any_eq_true]
    refine ⟨lead2, List.mem_of_find?_eq_some hfind2, ?_⟩
    have hpred := List.find?_some hfind2
    simpa using hpred
  refine ⟨_, lead1, _, _, lead2, h1, ?_, hsame1, hsame2⟩
  unfold createOrGetLead
  simp only [hany2, eq_self_iff_true, if_true, hfind2]

/-- C1: submitting the same lead twice (same normalized email, same trimmed
name, same submission UTC date) against a store that does not yet hold the
dedupe key yields `created = true` on the first call and `created = false`
on the second, and both calls return a record with the same id. -/
theorem claim_C1_idempotent_double_submit (cfg cfg2 : ClickUpConfig)
    (behavior behavior2 : Nat → Nat → Attempt) (setting : String) (s : DB)
    (d1 d2 : LeadCreate) (today : UTCDate) (n1 n2 : ℚ)
    (hmail : pyLower (pyStrip d2.correo) = pyLower (pyStrip d1.correo))
    (hname : pyStrip d2.nombre = pyStrip d1.nombre)
    (hnokey : ∀ r ∈ s.rows, r.dedupe_key ≠ generateDedupeKey d1 today)
    (hids : ∀ r ∈ s.rows, r.id < s.nextId) :
    ∃ s1 lead1 evs pays lead2,
      createOrGetLead cfg behavior setting s s d1 today n1 =
        .ok (s1, lead1, true, evs, pays) ∧
      createOrGetLead cfg2 behavior2 setting s1 s1 d2 today n2 =
        .ok (s1, lead2, false, [], []) ∧
      lead2.id = lead1.id := by
  obtain ⟨s1, lead1, evs, pays, lead2, h1, h2, hs1, hs2⟩ :=
    doubleSubmit_spec cfg cfg2 behavior behavior2 setting s d1 d2 today n1 n2
      hmail hname hnokey hids
  exact ⟨s1, lead1, evs, pays, lead2, h1, h2, by rw [hs2.1, hs1.1]⟩

theorem claim_C1_witness :
    ∃ s1 lead1 evs pays lead2,
      createOrGetLead (mkClickUpClient "" "" none) (fun _ _ => .netErr "x") ""
          emptyDB emptyDB sampleData sampleToday 0 =
        .ok (s1, lead1, true, evs, pays) ∧
      createOrGetLead (mkClickUpClient "" "" none) (fun _ _ => .netErr "x") ""
          s1 s1 sampleData sampleToday 0 =
        .ok (s1, lead2, false, [], []) ∧
      lead2.id = lead1.id :=
  claim_C1_idempotent_double_submit (mkClickUpClient "" "" none) (mkClickUpClient "" "" none)
    (fun _ _ => .netErr "x") (fun _ _ => .netErr "x") "" emptyDB sampleData sampleData
    sampleToday 0 0 rfl rfl (by simp [emptyDB]) (by simp [emptyDB])

/-- C10: when the engine resolves a duplicate submission, the returned
record keeps every submission-visible field of the first submission (name,
lower-cased email, phone, message, interests, and creation instant);
differing values in the later submission are discarded, and the second
call leaves the store exactly as it was: no row is inserted and no stored
row is modified. -/
theorem claim_C10_duplicate_preserves_first (cfg cfg2 : ClickUpConfig)
    (behavior behavior2 : Nat → Nat → Attempt) (setting : String) (s : DB)
    (d1 d2 : LeadCreate) (today : UTCDate) (n1 n2 : ℚ)
    (hmail : pyLower (pyStrip d2.correo) = pyLower (pyStrip d1.correo))
    (hname : pyStrip d2.nombre = pyStrip d1.nombre)
    (hnokey : ∀ r ∈ s.rows, r.dedupe_key ≠ generateDedupeKey d1 today)
    (hids : ∀ r ∈ s.rows, r.id < s.nextId) :
    ∃ s1 lead1 evs pays lead2,
      createOrGetLead cfg behavior setting s s d1 today n1 =
        .ok (s1, lead1, true, evs, pays) ∧
      createOrGetLead cfg2 behavior2 setting s1 s1 d2 today n2 =
        .ok (s1, lead2, false, [], []) ∧
      lead2.nombre = d1.nombre ∧
      lead2.correo = pyLower d1.correo ∧
      lead2.telefono = d1.telefono ∧
      lead2.mensaje = d1.mensaje ∧
      interesesGetter lead2.intereses_servicios_json =
        PyVal.list (d1.intereses_servicios.map PyVal.str) ∧
      lead2.created_at = n1 := by
  obtain ⟨s1, lead1, evs, pays, lead2, h1, h2, _hs1, hs2⟩ :=
    doubleSubmit_spec cfg cfg2 behavior behavior2 setting s d1 d2 today n1 n2
      hmail hname hnokey hids
  refine ⟨s1, lead1, evs, pays, lead2, h1, h2, hs2.2.2.1, hs2.2.2.2.1, hs2.2.2.2.2.1,
    hs2.2.2.2.2.2.2.1, ?_, hs2.2.1⟩
  rw [hs2.2.2.2.2.2.1]
  exact interesesGetter_setter d1.intereses_servicios

theorem claim_C10_witness :
    ∃ s1 lead1 evs pays lead2,
      createOrGetLead (mkClickUpClient "" "" none) (fun _ _ => .netErr "x") ""
          emptyDB emptyDB sampleData sampleToday 1 =
        .ok (s1, lead1, true, evs, pays) ∧
      createOrGetLead (mkClickUpClient "" "" none) (fun _ _ => .netErr "x") ""
          s1 s1 sampleData sampleToday 2 =
        .ok (s1, lead2, false, [], []) ∧
      lead2.nombre = sampleData.nombre ∧
      lead2.correo = pyLower sampleData.correo ∧
      lead2.telefono = sampleData.telefono ∧
      lead2.mensaje = sampleData.mensaje ∧
      interesesGetter lead2.intereses_servicios_json =
        PyVal.list (sampleData.intereses_servicios.map PyVal.str) ∧
      lead2.created_at = 1 :=
  claim_C10_duplicate_preserves_first (mkClickUpClient "" "" none)
    (mkClickUpClient "" "" none) (fun _ _ => .netErr "x") (fun _ _ => .netErr "x") ""
    emptyDB sampleData sampleData sampleToday 1 2 rfl rfl (by simp [emptyDB])
    (by simp [emptyDB])
